import Mathlib

/-!
Verification of the NFL playoff Monte Carlo simulator.

This file gives a shallow embedding of the two algorithmic source files of the
repository:

* `build_elo_2025.py` — sequential Elo rating engine (namespace `BuildElo`);
* `simulate_playoffs_2025.py` — bracket resolver and Monte Carlo aggregator
  (namespace `Simulate`).

Python floats are modelled as real numbers (`ℝ`); match scores, which may be
missing (`NaN` in the pandas frame), are modelled as `Option ℚ` with the
comparison semantics of IEEE `NaN` (any comparison involving a missing value
is false).  The global numpy random stream is modelled as an explicit stream
`rng : Nat → ℝ` together with a cursor `i : Nat` that each call to
`np.random.random()` advances by one.  A Python `KeyError` (dictionary lookup
of an absent key) is modelled by the `Except Err` monad.  Aggregate
probabilities (`count / num_sims`) are modelled in `ℚ`.
-/

abbrev Team := String

namespace BuildElo

/-- A row of the (pre-filtered, pre-sorted) schedule DataFrame consumed by
`update_elo_ratings`: date, the two teams, and the two scores.  Scores may be
missing, as in the raw pandas frame. -/
structure Match where
  gameday : String
  home_team : Team
  away_team : Team
  home_score : Option ℚ
  away_score : Option ℚ

/-- Comparison `home_score > away_score` on possibly-missing scores, with the
pandas/IEEE semantics: any comparison involving a missing value (`NaN`) is
false. -/
def scoreGt : Option ℚ → Option ℚ → Bool
  | some x, some y => decide (y < x)
  | _, _ => false

/-- `build_elo_2025.py`, `compute_win_probability` (lines 103-113):
`diff = (elo_home + hfa) - elo_away; p = 1 / (1 + 10 ** (-diff / 400))`. -/
noncomputable def compute_win_probability (elo_home elo_away hfa : ℝ) : ℝ :=
  let diff := (elo_home + hfa) - elo_away
  1 / (1 + (10 : ℝ) ^ (-diff / 400))

/-- `build_elo_2025.py` line 146: `actual_home = 1 if home_score > away_score
else 0`. -/
def actual_home (row : Match) : ℝ :=
  if scoreGt row.home_score row.away_score then 1 else 0

/-- One entry of the `game_log` audit trail (lines 156-169). -/
structure AuditRecord where
  gameday : String
  home_team : Team
  away_team : Team
  home_score : Option ℚ
  away_score : Option ℚ
  elo_home_before : ℝ
  elo_away_before : ℝ
  p_home_win : ℝ
  actual_home_win : ℝ
  delta : ℝ
  elo_home_after : ℝ
  elo_away_after : ℝ

/-- The body of the `for idx, row in df.iterrows()` loop of
`update_elo_ratings` (lines 132-173): read the two current ratings, compute
the expected probability and the realized outcome, transfer
`delta = K * (actual - p)` from away to home, and append one audit record.
Note the Python assignment order: `elo_ratings[home] = ...` is executed
before `elo_ratings[away] = ...`, so the away write wins when the two keys
coincide; the nested `if` below mirrors that. -/
noncomputable def elo_step (k_factor hfa : ℝ) (st : (Team → ℝ) × List AuditRecord)
    (row : Match) : (Team → ℝ) × List AuditRecord :=
  let elo_home := st.1 row.home_team
  let elo_away := st.1 row.away_team
  let p_home_win := compute_win_probability elo_home elo_away hfa
  let actual := actual_home row
  let delta := k_factor * (actual - p_home_win)
  let new_elo_home := elo_home + delta
  let new_elo_away := elo_away - delta
  let entry : AuditRecord :=
    { gameday := row.gameday
      home_team := row.home_team
      away_team := row.away_team
      home_score := row.home_score
      away_score := row.away_score
      elo_home_before := elo_home
      elo_away_before := elo_away
      p_home_win := p_home_win
      actual_home_win := actual
      delta := delta
      elo_home_after := new_elo_home
      elo_away_after := new_elo_away }
  (fun t => if t = row.away_team then new_elo_away
            else if t = row.home_team then new_elo_home else st.1 t,
   st.2 ++ [entry])

/-- `build_elo_2025.py`, `update_elo_ratings` (lines 120-177): fold
`elo_step` over the games in the given order, starting from the initial
rating table (every team of the frame is initialized by
`initialize_elo_ratings`, hence a total map) and an empty game log. -/
noncomputable def update_elo_ratings (elo_ratings : Team → ℝ) (df : List Match)
    (k_factor hfa : ℝ) : (Team → ℝ) × List AuditRecord :=
  df.foldl (elo_step k_factor hfa) (elo_ratings, [])

end BuildElo

namespace Simulate

/-- `PLAYOFF_SEEDS["AFC"]` (lines 26-34). -/
def afc_seeds : Nat → Team
  | 1 => "DEN"
  | 2 => "NE"
  | 3 => "JAX"
  | 4 => "PIT"
  | 5 => "HOU"
  | 6 => "BUF"
  | 7 => "LAC"
  | _ => ""

/-- `PLAYOFF_SEEDS["NFC"]` (lines 35-43). -/
def nfc_seeds : Nat → Team
  | 1 => "SEA"
  | 2 => "CHI"
  | 3 => "PHI"
  | 4 => "CAR"
  | 5 => "LA"
  | 6 => "SF"
  | 7 => "GB"
  | _ => ""

/-- The seven AFC playoff teams, in seed order. -/
def afc_teams : List Team := ["DEN", "NE", "JAX", "PIT", "HOU", "BUF", "LAC"]

/-- The seven NFC playoff teams, in seed order. -/
def nfc_teams : List Team := ["SEA", "CHI", "PHI", "CAR", "LA", "SF", "GB"]

/-- All fourteen seeded teams. -/
def all_playoff_teams : List Team := afc_teams ++ nfc_teams

/-- A Python `KeyError` raised by a dictionary lookup of an absent key. -/
inductive Err where
  | keyError : Team → Err
deriving DecidableEq

/-- `simulate_playoffs_2025.py`, `compute_win_probability` (lines 85-104). -/
noncomputable def compute_win_probability (elo_home elo_away hfa : ℝ)
    (is_neutral : Bool) : ℝ :=
  let diff := if is_neutral then elo_home - elo_away else (elo_home + hfa) - elo_away
  1 / (1 + (10 : ℝ) ^ (-diff / 400))

/-- `simulate_game` (lines 111-131): look up the two ratings (home first —
a missing key raises before anything else happens), compute the win
probability, draw one uniform variate, and pick the home team iff
`u < p_home_win`.  The rating lookups happen before the draw, so a failing
lookup consumes no randomness. -/
noncomputable def simulate_game (team_home team_away : Team)
    (elo_dict : Team → Option ℝ) (hfa : ℝ) (is_neutral : Bool)
    (rng : Nat → ℝ) (i : Nat) : Nat × Except Err (Team × ℝ) :=
  match elo_dict team_home with
  | none => (i, .error (.keyError team_home))
  | some elo_home =>
    match elo_dict team_away with
    | none => (i, .error (.keyError team_away))
    | some elo_away =>
      let p_home_win := compute_win_probability elo_home elo_away hfa is_neutral
      let u := rng i
      (i + 1, .ok (if u < p_home_win then team_home else team_away, p_home_win))

/-- The `for seed_home, seed_away in matchups` loop of `simulate_wild_card`
(lines 163-168), accumulating winners in order. -/
noncomputable def run_matchups (seeds : Nat → Team) (elo_dict : Team → Option ℝ)
    (hfa : ℝ) (rng : Nat → ℝ) :
    List (Nat × Nat) → List Team → Nat → Nat × Except Err (List Team)
  | [], winners, i => (i, .ok winners)
  | (seed_home, seed_away) :: rest, winners, i =>
    match simulate_game (seeds seed_home) (seeds seed_away) elo_dict hfa false rng i with
    | (i', .error e) => (i', .error e)
    | (i', .ok (winner, _)) => run_matchups seeds elo_dict hfa rng rest (winners ++ [winner]) i'

/-- `simulate_wild_card` (lines 138-174): seed 1 gets a bye, then the fixed
pairings `(2,7), (3,6), (4,5)` are played in order, lower seed at home. -/
noncomputable def simulate_wild_card (_conference : String) (seeds : Nat → Team)
    (elo_dict : Team → Option ℝ) (hfa : ℝ) (rng : Nat → ℝ) (i : Nat) :
    Nat × Except Err (List Team) :=
  run_matchups seeds elo_dict hfa rng [(2, 7), (3, 6), (4, 5)] [seeds 1] i

/-- The inverse dictionary `team_to_seed = {team: seed for seed, team in
seeds.items()}` (line 196): iterating the seven seeds in order, a later
duplicate overwrites an earlier one, so lookup returns the largest matching
seed; an absent team raises `KeyError`. -/
def team_to_seed (seeds : Nat → Team) (t : Team) : Option Nat :=
  (((List.range 7).map (fun n => n + 1)).reverse).find? (fun s => seeds s == t)

/-- The list comprehension `[team_to_seed[team] for team in winners]`
(line 197): dictionary lookups in list order, the first absent team raising
`KeyError`. -/
def seeds_of_teams (seeds : Nat → Team) (teams : List Team) : Except Err (List Nat) :=
  teams.mapM fun t =>
    match team_to_seed seeds t with
    | some s => Except.ok s
    | none => Except.error (Err.keyError t)

/-- Python `max` over a list of (positive) naturals. -/
def pyMax (l : List Nat) : Nat := l.foldl max 0

/-- Python `min` over a nonempty list of naturals. -/
def pyMin : List Nat → Nat
  | [] => 0
  | x :: xs => xs.foldl min x

/-- Insert an element into a sorted list, after any element it is not
strictly below. -/
def insertOrd (lt : α → α → Bool) (x : α) : List α → List α
  | [] => [x]
  | y :: ys => if lt x y then x :: y :: ys else y :: insertOrd lt x ys

/-- Python `sorted` with a strict comparison key: stable insertion sort. -/
def pySortBy (lt : α → α → Bool) (l : List α) : List α :=
  l.foldl (fun acc x => insertOrd lt x acc) []

/-- Python `sorted` on naturals, ascending. -/
def pySortNat (l : List Nat) : List Nat := pySortBy (fun a b => decide (a < b)) l

/-- The reseeding computation of `simulate_divisional` (lines 195-218): map
winners back to seeds, sort; seed 1 hosts the largest surviving seed; the
other two survivors play, the smaller seed hosting.  Returns the two
`(home, away)` pairings in game order. -/
def divisional_pairings (seeds : Nat → Team) (wild_card_winners : List Team) :
    Except Err ((Team × Team) × (Team × Team)) :=
  match seeds_of_teams seeds wild_card_winners with
  | .error e => .error e
  | .ok sds =>
    let remaining_seeds := pySortNat sds
    let seed_1_team := seeds 1
    let lowest_seed := pyMax remaining_seeds
    let lowest_team := seeds lowest_seed
    let other_seeds := remaining_seeds.filter fun s =>
      decide (s ≠ 1) && decide (s ≠ lowest_seed)
    let higher_seed := pyMin other_seeds
    let lower_seed := pyMax other_seeds
    .ok ((seed_1_team, lowest_team), (seeds higher_seed, seeds lower_seed))

/-- `simulate_divisional` (lines 181-225): compute the reseeded pairings,
then play the two games in order. -/
noncomputable def simulate_divisional (_conference : String)
    (wild_card_winners : List Team) (seeds : Nat → Team)
    (elo_dict : Team → Option ℝ) (hfa : ℝ) (rng : Nat → ℝ) (i : Nat) :
    Nat × Except Err (List Team) :=
  match divisional_pairings seeds wild_card_winners with
  | .error e => (i, .error e)
  | .ok ((h1, a1), (h2, a2)) =>
    match simulate_game h1 a1 elo_dict hfa false rng i with
    | (i1, .error e) => (i1, .error e)
    | (i1, .ok (winner_1, _)) =>
      match simulate_game h2 a2 elo_dict hfa false rng i1 with
      | (i2, .error e) => (i2, .error e)
      | (i2, .ok (winner_2, _)) => (i2, .ok [winner_1, winner_2])

/-- The pairing computation of `simulate_conference_championship`
(lines 244-252): the smaller surviving seed hosts. -/
def championship_pairing (seeds : Nat → Team) (divisional_winners : List Team) :
    Except Err (Team × Team) :=
  match seeds_of_teams seeds divisional_winners with
  | .error e => .error e
  | .ok sds =>
    let remaining_seeds := pySortNat sds
    let higher_seed := pyMin remaining_seeds
    let lower_seed := pyMax remaining_seeds
    .ok (seeds higher_seed, seeds lower_seed)

/-- `simulate_conference_championship` (lines 232-260). -/
noncomputable def simulate_conference_championship (_conference : String)
    (divisional_winners : List Team) (seeds : Nat → Team)
    (elo_dict : Team → Option ℝ) (hfa : ℝ) (rng : Nat → ℝ) (i : Nat) :
    Nat × Except Err Team :=
  match championship_pairing seeds divisional_winners with
  | .error e => (i, .error e)
  | .ok (team_home, team_away) =>
    match simulate_game team_home team_away elo_dict hfa false rng i with
    | (i', .error e) => (i', .error e)
    | (i', .ok (winner, _)) => (i', .ok winner)

/-- `simulate_super_bowl` (lines 267-285): one game at a neutral site, the
AFC champion listed as nominal home. -/
noncomputable def simulate_super_bowl (afc_champ nfc_champ : Team)
    (elo_dict : Team → Option ℝ) (hfa : ℝ) (rng : Nat → ℝ) (i : Nat) :
    Nat × Except Err Team :=
  match simulate_game afc_champ nfc_champ elo_dict hfa true rng i with
  | (i', .error e) => (i', .error e)
  | (i', .ok (winner, _)) => (i', .ok winner)

/-- The `results` dictionary of `simulate_one_bracket` (lines 299-304). -/
structure TrialOutcome where
  divisional : List Team
  conf_champ : List Team
  super_bowl : List Team
  champion : Team

/-- `simulate_one_bracket` (lines 292-332): AFC wild card, divisional and
championship, then the same for the NFC, then the Super Bowl, accumulating
the milestone lists in that order. -/
noncomputable def simulate_one_bracket (elo_dict : Team → Option ℝ) (hfa : ℝ)
    (rng : Nat → ℝ) (i : Nat) : Nat × Except Err TrialOutcome :=
  match simulate_wild_card "AFC" afc_seeds elo_dict hfa rng i with
  | (i1, .error e) => (i1, .error e)
  | (i1, .ok afc_wc_winners) =>
    match simulate_divisional "AFC" afc_wc_winners afc_seeds elo_dict hfa rng i1 with
    | (i2, .error e) => (i2, .error e)
    | (i2, .ok afc_div_winners) =>
      match simulate_conference_championship "AFC" afc_div_winners afc_seeds elo_dict hfa rng i2 with
      | (i3, .error e) => (i3, .error e)
      | (i3, .ok afc_champ) =>
        match simulate_wild_card "NFC" nfc_seeds elo_dict hfa rng i3 with
        | (i4, .error e) => (i4, .error e)
        | (i4, .ok nfc_wc_winners) =>
          match simulate_divisional "NFC" nfc_wc_winners nfc_seeds elo_dict hfa rng i4 with
          | (i5, .error e) => (i5, .error e)
          | (i5, .ok nfc_div_winners) =>
            match simulate_conference_championship "NFC" nfc_div_winners nfc_seeds elo_dict hfa rng i5 with
            | (i6, .error e) => (i6, .error e)
            | (i6, .ok nfc_champ) =>
              match simulate_super_bowl afc_champ nfc_champ elo_dict hfa rng i6 with
              | (i7, .error e) => (i7, .error e)
              | (i7, .ok champion) =>
                (i7, .ok { divisional := afc_wc_winners ++ nfc_wc_winners
                           conf_champ := afc_div_winners ++ nfc_div_winners
                           super_bowl := [afc_champ, nfc_champ]
                           champion := champion })

/-- The per-team counter record of `run_simulations` (lines 349-354). -/
structure Counts where
  divisional : Nat
  conf_champ : Nat
  super_bowl : Nat
  champion : Nat
deriving DecidableEq

/-- The `counts` defaultdict: its key list in insertion order, and the
counter table (zero off the key list). -/
abbrev CState := List Team × (Team → Counts)

/-- `counts[team][field] += 1`: accessing an absent key of the defaultdict
inserts it (at the end of the key order) at the zero record. -/
def bump (st : CState) (t : Team) (f : Counts → Counts) : CState :=
  ((if t ∈ st.1 then st.1 else st.1 ++ [t]),
   fun x => if x = t then f (st.2 x) else st.2 x)

/-- The count-updating section of the trial loop (lines 363-374): one
increment per list entry, in list order, then the champion increment guarded
by Python truthiness of `results['champion']`. -/
def update_counts (st : CState) (results : TrialOutcome) : CState :=
  let st1 := results.divisional.foldl
    (fun s t => bump s t fun c => { c with divisional := c.divisional + 1 }) st
  let st2 := results.conf_champ.foldl
    (fun s t => bump s t fun c => { c with conf_champ := c.conf_champ + 1 }) st1
  let st3 := results.super_bowl.foldl
    (fun s t => bump s t fun c => { c with super_bowl := c.super_bowl + 1 }) st2
  if results.champion ≠ "" then
    bump st3 results.champion fun c => { c with champion := c.champion + 1 }
  else st3

/-- One row of the output probability table (lines 377-385). -/
structure Row where
  team : Team
  pct_make_divisional : ℚ
  pct_make_conf_champ : ℚ
  pct_make_superbowl : ℚ
  pct_win_superbowl : ℚ
deriving DecidableEq

/-- `prob_data.append(...)` (lines 379-385): convert one team's counters to
probabilities. -/
def make_row (cnt : Team → Counts) (num_sims : Nat) (t : Team) : Row :=
  { team := t
    pct_make_divisional := ((cnt t).divisional : ℚ) / (num_sims : ℚ)
    pct_make_conf_champ := ((cnt t).conf_champ : ℚ) / (num_sims : ℚ)
    pct_make_superbowl := ((cnt t).super_bowl : ℚ) / (num_sims : ℚ)
    pct_win_superbowl := ((cnt t).champion : ℚ) / (num_sims : ℚ) }

/-- The `for sim in range(num_sims)` loop of `run_simulations`
(lines 356-374), threading the random cursor and the counts. -/
noncomputable def sim_loop (elo_dict : Team → Option ℝ) (hfa : ℝ) (rng : Nat → ℝ) :
    Nat → CState → Nat → Nat × Except Err CState
  | 0, st, i => (i, .ok st)
  | Nat.succ n, st, i =>
    match simulate_one_bracket elo_dict hfa rng i with
    | (i', .error e) => (i', .error e)
    | (i', .ok results) => sim_loop elo_dict hfa rng n (update_counts st results) i'

/-- `run_simulations` (lines 339-391): run `num_sims` brackets, convert the
counters to probabilities (one row per key of the defaultdict, in insertion
order), and sort descending by `pct_win_superbowl`. -/
noncomputable def run_simulations (elo_dict : Team → Option ℝ) (hfa : ℝ)
    (num_sims : Nat) (rng : Nat → ℝ) (i : Nat) : Nat × Except Err (List Row) :=
  match sim_loop elo_dict hfa rng num_sims ([], fun _ => ⟨0, 0, 0, 0⟩) i with
  | (i', .error e) => (i', .error e)
  | (i', .ok st) =>
    (i', .ok (pySortBy (fun a b => decide (b.pct_win_superbowl < a.pct_win_superbowl))
      (st.1.map (make_row st.2 num_sims))))

end Simulate

/-! ## Basic facts about the win probability model -/

/-- The logistic win probability of the resolver is strictly positive. -/
theorem Simulate.compute_win_probability_pos (a b hfa : ℝ) (nt : Bool) :
    0 < Simulate.compute_win_probability a b hfa nt := by
  unfold Simulate.compute_win_probability
  have h10 : (0 : ℝ) < (10 : ℝ) ^ (-(if nt then a - b else a + hfa - b) / 400) :=
    Real.rpow_pos_of_pos (by norm_num) _
  positivity

/-- Claim C6: for all ratings `A` and `B` and any home-advantage value `hfa`,
the neutral-site win probabilities are complementary:
`winProbability(A, B, hfa, neutral=true) + winProbability(B, A, hfa, neutral=true) = 1`
exactly. -/
theorem claim_c6 (A B hfa : ℝ) :
    Simulate.compute_win_probability A B hfa true
      + Simulate.compute_win_probability B A hfa true = 1 := by
  unfold Simulate.compute_win_probability
  simp only [if_pos rfl, reduceIte]
  have ht : (0 : ℝ) < (10 : ℝ) ^ ((A - B) / 400) :=
    Real.rpow_pos_of_pos (by norm_num) _
  have hswap : -(B - A) / 400 = (A - B) / 400 := by ring
  have hneg : (10 : ℝ) ^ (-(A - B) / 400) = ((10 : ℝ) ^ ((A - B) / 400))⁻¹ := by
    rw [neg_div]
    exact Real.rpow_neg (by norm_num) _
  rw [hswap, hneg]
  have h1 : (1 : ℝ) + ((10 : ℝ) ^ ((A - B) / 400))⁻¹ ≠ 0 := by positivity
  have h2 : (1 : ℝ) + (10 : ℝ) ^ ((A - B) / 400) ≠ 0 := by positivity
  field_simp
  ring

/-! ## Zero-sum structure of the rating update -/

/-- Pointwise description of the rating table after one `elo_step`. -/
theorem BuildElo.elo_step_apply (k hfa : ℝ) (r : Team → ℝ) (l : List BuildElo.AuditRecord)
    (row : BuildElo.Match) (t : Team) :
    (BuildElo.elo_step k hfa (r, l) row).1 t =
      if t = row.away_team then
        r row.away_team - k * (BuildElo.actual_home row -
          BuildElo.compute_win_probability (r row.home_team) (r row.away_team) hfa)
      else if t = row.home_team then
        r row.home_team + k * (BuildElo.actual_home row -
          BuildElo.compute_win_probability (r row.home_team) (r row.away_team) hfa)
      else r t := rfl

/-- One `elo_step` leaves the total rating of any finite set containing both
(distinct) participants unchanged. -/
theorem BuildElo.elo_step_sum (k hfa : ℝ) (r : Team → ℝ) (l : List BuildElo.AuditRecord)
    (row : BuildElo.Match) (hne : row.home_team ≠ row.away_team) (S : Finset Team)
    (hh : row.home_team ∈ S) (ha : row.away_team ∈ S) :
    ∑ t ∈ S, (BuildElo.elo_step k hfa (r, l) row).1 t = ∑ t ∈ S, r t := by
  set d := k * (BuildElo.actual_home row -
    BuildElo.compute_win_probability (r row.home_team) (r row.away_team) hfa) with hd
  have hpt : ∀ t, (BuildElo.elo_step k hfa (r, l) row).1 t =
      r t + ((if t = row.home_team then d else 0) + (if t = row.away_team then -d else 0)) := by
    intro t
    rw [BuildElo.elo_step_apply]
    by_cases h1 : t = row.away_team
    · subst h1
      rw [if_pos rfl, if_neg (fun h => hne h.symm), if_pos rfl]
      ring
    · by_cases h2 : t = row.home_team
      · subst h2
        rw [if_neg h1, if_pos rfl, if_pos rfl, if_neg h1]
        ring
      · rw [if_neg h1, if_neg h2, if_neg h2, if_neg h1]
        ring
  calc ∑ t ∈ S, (BuildElo.elo_step k hfa (r, l) row).1 t
      = ∑ t ∈ S, (r t + ((if t = row.home_team then d else 0)
          + (if t = row.away_team then -d else 0))) :=
        Finset.sum_congr rfl fun t _ => hpt t
    _ = ∑ t ∈ S, r t + ((∑ t ∈ S, if t = row.home_team then d else 0)
          + ∑ t ∈ S, if t = row.away_team then -d else 0) := by
        rw [Finset.sum_add_distrib, Finset.sum_add_distrib]
    _ = ∑ t ∈ S, r t := by
        rw [Finset.sum_ite_eq' S row.home_team fun _ => d,
          Finset.sum_ite_eq' S row.away_team fun _ => -d,
          if_pos hh, if_pos ha]
        ring

/-- The first component of `elo_step` does not depend on the audit log. -/
theorem BuildElo.elo_step_fst_log (k hfa : ℝ) (r : Team → ℝ)
    (l l' : List BuildElo.AuditRecord) (row : BuildElo.Match) :
    (BuildElo.elo_step k hfa (r, l) row).1 = (BuildElo.elo_step k hfa (r, l') row).1 := rfl

/-- Folding `elo_step` over any match list whose matches have distinct teams
drawn from `S` leaves the total rating over `S` unchanged. -/
theorem BuildElo.elo_fold_sum (k hfa : ℝ) (S : Finset Team) :
    ∀ (df : List BuildElo.Match) (r : Team → ℝ) (l : List BuildElo.AuditRecord),
      (∀ m ∈ df, m.home_team ≠ m.away_team) →
      (∀ m ∈ df, m.home_team ∈ S ∧ m.away_team ∈ S) →
      ∑ t ∈ S, (df.foldl (BuildElo.elo_step k hfa) (r, l)).1 t = ∑ t ∈ S, r t := by
  intro df
  induction df with
  | nil => intro r l _ _; rfl
  | cons m ms ih =>
    intro r l hne hmem
    have hstep := BuildElo.elo_step_sum k hfa r l m (hne m (List.mem_cons_self m ms)) S
      (hmem m (List.mem_cons_self m ms)).1 (hmem m (List.mem_cons_self m ms)).2
    have : (m :: ms).foldl (BuildElo.elo_step k hfa) (r, l)
        = ms.foldl (BuildElo.elo_step k hfa) (BuildElo.elo_step k hfa (r, l) m) := rfl
    rw [this]
    have hrec := ih ((BuildElo.elo_step k hfa (r, l) m).1)
      ((BuildElo.elo_step k hfa (r, l) m).2)
      (fun x hx => hne x (List.mem_cons_of_mem m hx))
      (fun x hx => hmem x (List.mem_cons_of_mem m hx))
    rw [← hstep]
    convert hrec using 3

/-- Claim C2: for every processed match the rating update is zero-sum — the
home team's rating change is the negation of the away team's change, so the
total of the ratings over any finite set of teams containing both
participants is unchanged by each update, and hence by the whole fold of
`update_elo_ratings`. -/
theorem claim_c2 (k hfa : ℝ) (ratings : Team → ℝ) (log : List BuildElo.AuditRecord)
    (row : BuildElo.Match) (hne : row.home_team ≠ row.away_team) :
    ((BuildElo.elo_step k hfa (ratings, log) row).1 row.home_team - ratings row.home_team
      = -((BuildElo.elo_step k hfa (ratings, log) row).1 row.away_team - ratings row.away_team))
    ∧ (∀ S : Finset Team, row.home_team ∈ S → row.away_team ∈ S →
        ∑ t ∈ S, (BuildElo.elo_step k hfa (ratings, log) row).1 t = ∑ t ∈ S, ratings t)
    ∧ (∀ (df : List BuildElo.Match) (S : Finset Team),
        (∀ m ∈ df, m.home_team ≠ m.away_team) →
        (∀ m ∈ df, m.home_team ∈ S ∧ m.away_team ∈ S) →
        ∑ t ∈ S, (BuildElo.update_elo_ratings ratings df k hfa).1 t = ∑ t ∈ S, ratings t) := by
  refine ⟨?_, ?_, ?_⟩
  · rw [BuildElo.elo_step_apply, BuildElo.elo_step_apply]
    rw [if_neg hne, if_pos rfl, if_pos rfl]
    ring
  · intro S hh ha
    exact BuildElo.elo_step_sum k hfa ratings log row hne S hh ha
  · intro df S h1 h2
    exact BuildElo.elo_fold_sum k hfa S df ratings [] h1 h2

/-- Witness for claim C2 at a concrete match between distinct teams. -/
theorem claim_c2_witness :
    ("A" : Team) ≠ "B" ∧
    ((BuildElo.elo_step 30 55 (fun _ => (1500 : ℝ), []) ⟨"d", "A", "B", some 1, some 0⟩).1 "A"
        - 1500
      = -((BuildElo.elo_step 30 55 (fun _ => (1500 : ℝ), [])
          ⟨"d", "A", "B", some 1, some 0⟩).1 "B" - 1500)) := by
  refine ⟨by decide, ?_⟩
  exact (claim_c2 30 55 (fun _ => (1500 : ℝ)) [] ⟨"d", "A", "B", some 1, some 0⟩
    (by decide)).1

/-! ## The realized-outcome indicator -/

/-- Claim C7: the realized-outcome indicator is `1` iff the home score is
strictly greater than the away score; a drawn match is recorded as an
away-team win (indicator `0`). -/
theorem claim_c7 (row : BuildElo.Match) (hs as : ℚ)
    (hh : row.home_score = some hs) (ha : row.away_score = some as) :
    (BuildElo.actual_home row = 1 ↔ as < hs)
    ∧ (hs = as → BuildElo.actual_home row = 0) := by
  by_cases h : as < hs
  · constructor
    · simp [BuildElo.actual_home, BuildElo.scoreGt, hh, ha, h]
    · intro heq
      subst heq
      exact absurd h (lt_irrefl _)
  · constructor
    · simp [BuildElo.actual_home, BuildElo.scoreGt, hh, ha, h]
    · intro _
      simp [BuildElo.actual_home, BuildElo.scoreGt, hh, ha, h]

/-- Witness for claim C7: a drawn match is recorded with indicator `0`, and
a home loss does not have indicator `1`. -/
theorem claim_c7_witness :
    BuildElo.actual_home ⟨"d", "A", "B", some 3, some 3⟩ = 0 ∧
    (BuildElo.actual_home ⟨"d", "A", "B", some 2, some 3⟩ = 1 ↔ (3 : ℚ) < 2) :=
  ⟨(claim_c7 ⟨"d", "A", "B", some 3, some 3⟩ 3 3 rfl rfl).2 rfl,
   (claim_c7 ⟨"d", "A", "B", some 2, some 3⟩ 2 3 rfl rfl).1⟩

/-! ## The engine applies no precondition checks -/

/-- Prepending an initial audit log to the fold only prepends it to the
resulting log. -/
theorem BuildElo.fold_log_append (k hfa : ℝ) :
    ∀ (df : List BuildElo.Match) (r : Team → ℝ) (l : List BuildElo.AuditRecord),
      (df.foldl (BuildElo.elo_step k hfa) (r, l)).2
        = l ++ (df.foldl (BuildElo.elo_step k hfa) (r, [])).2 := by
  intro df
  induction df with
  | nil => intro r l; simp
  | cons m ms ih =>
    intro r l
    have h1 : (m :: ms).foldl (BuildElo.elo_step k hfa) (r, l)
        = ms.foldl (BuildElo.elo_step k hfa) (BuildElo.elo_step k hfa (r, l) m) := rfl
    have h2 : (m :: ms).foldl (BuildElo.elo_step k hfa) (r, [])
        = ms.foldl (BuildElo.elo_step k hfa) (BuildElo.elo_step k hfa (r, []) m) := rfl
    rw [h1, h2]
    have hr : (BuildElo.elo_step k hfa (r, l) m).1 = (BuildElo.elo_step k hfa (r, []) m).1 := rfl
    have hstep_l : BuildElo.elo_step k hfa (r, l) m
        = ((BuildElo.elo_step k hfa (r, []) m).1, l ++ (BuildElo.elo_step k hfa (r, []) m).2) := rfl
    rw [hstep_l, ih, ih ((BuildElo.elo_step k hfa (r, []) m).1) ((BuildElo.elo_step k hfa (r, []) m).2)]
    rw [List.append_assoc]

/-- The audit log of `update_elo_ratings` carries exactly the per-match
realized-outcome indicators, in input order. -/
theorem BuildElo.update_log_actual (k hfa : ℝ) :
    ∀ (df : List BuildElo.Match) (r : Team → ℝ),
      ((BuildElo.update_elo_ratings r df k hfa).2).map (fun e => e.actual_home_win)
        = df.map BuildElo.actual_home := by
  intro df
  induction df with
  | nil => intro r; rfl
  | cons m ms ih =>
    intro r
    unfold BuildElo.update_elo_ratings at *
    have h1 : (m :: ms).foldl (BuildElo.elo_step k hfa) (r, [])
        = ms.foldl (BuildElo.elo_step k hfa) (BuildElo.elo_step k hfa (r, []) m) := rfl
    rw [h1]
    have hstep : BuildElo.elo_step k hfa (r, []) m
        = ((BuildElo.elo_step k hfa (r, []) m).1, (BuildElo.elo_step k hfa (r, []) m).2) := rfl
    rw [BuildElo.fold_log_append k hfa ms ((BuildElo.elo_step k hfa (r, []) m).1)
      ((BuildElo.elo_step k hfa (r, []) m).2)]
    rw [List.map_append, ih ((BuildElo.elo_step k hfa (r, []) m).1)]
    rfl

/-- Claim C10: the rating engine performs no precondition checks — every
input list (in whatever date order) is folded without error, producing one
audit record per match whose recorded indicator is `actual_home`; a match
with a missing score compares as not-greater and is recorded as an away-team
win (indicator `0`). -/
theorem claim_c10 (ratings : Team → ℝ) (k hfa : ℝ) (df : List BuildElo.Match) :
    ((BuildElo.update_elo_ratings ratings df k hfa).2).map (fun e => e.actual_home_win)
      = df.map BuildElo.actual_home
    ∧ (BuildElo.update_elo_ratings ratings df k hfa).2.length = df.length
    ∧ (∀ m : BuildElo.Match, m.home_score = none ∨ m.away_score = none →
        BuildElo.actual_home m = 0) := by
  refine ⟨BuildElo.update_log_actual k hfa df ratings, ?_, ?_⟩
  · have h := congrArg List.length (BuildElo.update_log_actual k hfa df ratings)
    simpa using h
  · intro m hm
    unfold BuildElo.actual_home BuildElo.scoreGt
    rcases hm with h | h
    · rw [h]
      rcases m.away_score with _ | y <;> simp
    · rw [h]
      rcases m.home_score with _ | x <;> simp

/-- Witness for claim C10 at an out-of-date-order two-match list whose first
match is missing its away score. -/
theorem claim_c10_witness :
    (BuildElo.update_elo_ratings (fun _ => (1500 : ℝ))
        [⟨"2025-12-01", "A", "B", some 10, none⟩,
         ⟨"2025-09-01", "C", "D", some 3, some 7⟩] 30 55).2.length = 2 ∧
    BuildElo.actual_home ⟨"2025-12-01", "A", "B", some 10, none⟩ = 0 :=
  ⟨(claim_c10 (fun _ => (1500 : ℝ)) 30 55
      [⟨"2025-12-01", "A", "B", some 10, none⟩,
       ⟨"2025-09-01", "C", "D", some 3, some 7⟩]).2.1,
   (claim_c10 (fun _ => (1500 : ℝ)) 30 55
      [⟨"2025-12-01", "A", "B", some 10, none⟩,
       ⟨"2025-09-01", "C", "D", some 3, some 7⟩]).2.2
      ⟨"2025-12-01", "A", "B", some 10, none⟩ (Or.inr rfl)⟩

/-! ## Determinism of the simulation given the random stream -/

/-- Claim C8: two runs with the same ratings, home advantage, trial count and
the same seeded random stream produce identical per-game outcomes (the whole
bracket outcome of every trial) and identical aggregate tables. -/
theorem claim_c8 (elo_dict : Team → Option ℝ) (hfa : ℝ) (num_sims i : Nat)
    (rng1 rng2 : Nat → ℝ) (h : ∀ n, rng1 n = rng2 n) :
    Simulate.simulate_one_bracket elo_dict hfa rng1 i
      = Simulate.simulate_one_bracket elo_dict hfa rng2 i
    ∧ Simulate.run_simulations elo_dict hfa num_sims rng1 i
      = Simulate.run_simulations elo_dict hfa num_sims rng2 i := by
  have heq : rng1 = rng2 := funext h
  subst heq
  exact ⟨rfl, rfl⟩

/-- Witness for claim C8 at a concrete stream. -/
theorem claim_c8_witness :
    Simulate.run_simulations (fun _ => some (1500 : ℝ)) 55 3 (fun _ => (0 : ℝ)) 0
      = Simulate.run_simulations (fun _ => some (1500 : ℝ)) 55 3 (fun _ => (0 : ℝ)) 0 :=
  (claim_c8 (fun _ => some (1500 : ℝ)) 55 3 0 (fun _ => (0 : ℝ)) (fun _ => (0 : ℝ))
    (fun _ => rfl)).2

/-! ## Missing-team behaviour of the resolver -/

/-- Claim C1 (amended): a referenced team absent from the rating table makes
the game in which it is first looked up fail with a `KeyError` naming that
team — the lookup raises before the game's random draw (the cursor is not
advanced) and no rating is defaulted. -/
theorem claim_c1_amended (team_home team_away : Team) (elo_dict : Team → Option ℝ)
    (hfa : ℝ) (is_neutral : Bool) (rng : Nat → ℝ) (i : Nat) :
    (elo_dict team_home = none →
      Simulate.simulate_game team_home team_away elo_dict hfa is_neutral rng i
        = (i, .error (.keyError team_home)))
    ∧ (∀ x : ℝ, elo_dict team_home = some x → elo_dict team_away = none →
        Simulate.simulate_game team_home team_away elo_dict hfa is_neutral rng i
          = (i, .error (.keyError team_away))) := by
  constructor
  · intro hh
    unfold Simulate.simulate_game
    rw [hh]
  · intro x hh ha
    unfold Simulate.simulate_game
    rw [hh, ha]

/-- Witness for claim C1 (amended): with `CHI` missing from the table, the
game looking it up errors without advancing the random cursor. -/
theorem claim_c1_witness :
    (fun t : Team => if t = "CHI" then (none : Option ℝ) else some 1500) "CHI" = none ∧
    Simulate.simulate_game "CHI" "GB"
        (fun t : Team => if t = "CHI" then (none : Option ℝ) else some 1500)
        55 false (fun _ => (0 : ℝ)) 6
      = (6, .error (.keyError "CHI")) :=
  ⟨rfl,
   (claim_c1_amended "CHI" "GB"
      (fun t : Team => if t = "CHI" then (none : Option ℝ) else some 1500)
      55 false (fun _ => (0 : ℝ)) 6).1 rfl⟩

/-! ## Divisional reseeding -/

/-- Claim C3: with the four divisional-round survivors mapped back to seed
numbers `1 < a < b < c`, the team holding seed 1 hosts the survivor with the
numerically largest seed `c`, and the other two survivors play each other
with the numerically smaller seed `a` hosting. -/
theorem claim_c3 (seeds : Nat → Team) (winners : List Team) (sds : List Nat)
    (a b c : Nat) (hmap : Simulate.seeds_of_teams seeds winners = .ok sds)
    (hsort : Simulate.pySortNat sds = [1, a, b, c])
    (h1a : 1 < a) (hab : a < b) (hbc : b < c) :
    Simulate.divisional_pairings seeds winners =
      .ok ((seeds 1, seeds c), (seeds a, seeds b)) := by
  have hac : a < c := lt_trans hab hbc
  have hmax : Simulate.pyMax [1, a, b, c] = c := by
    show max (max (max (max 0 1) a) b) c = c
    rw [Nat.max_eq_right (Nat.zero_le 1), Nat.max_eq_right (le_of_lt h1a),
      Nat.max_eq_right (le_of_lt hab), Nat.max_eq_right (le_of_lt hbc)]
  have hfa' : (decide (a ≠ 1) && decide (a ≠ c)) = true := by
    simp only [Bool.and_eq_true, decide_eq_true_eq]
    exact ⟨Nat.ne_of_gt h1a, Nat.ne_of_lt hac⟩
  have hfb : (decide (b ≠ 1) && decide (b ≠ c)) = true := by
    simp only [Bool.and_eq_true, decide_eq_true_eq]
    exact ⟨Nat.ne_of_gt (lt_trans h1a hab), Nat.ne_of_lt hbc⟩
  have hf1 : (decide ((1 : Nat) ≠ 1) && decide ((1 : Nat) ≠ c)) = false := by
    simp
  have hfc : (decide (c ≠ 1) && decide (c ≠ c)) = false := by
    simp
  have hfilter : List.filter (fun s => decide (s ≠ 1) && decide (s ≠ c)) [1, a, b, c]
      = [a, b] := by
    simp only [List.filter_cons, hfa', hfb, hf1, hfc, List.filter_nil]
    simp
  have hmin2 : Simulate.pyMin [a, b] = a := by
    show min a b = a
    exact Nat.min_eq_left (le_of_lt hab)
  have hmax2 : Simulate.pyMax [a, b] = b := by
    show max (max 0 a) b = b
    rw [Nat.max_eq_right (Nat.zero_le a), Nat.max_eq_right (le_of_lt hab)]
  unfold Simulate.divisional_pairings
  rw [hmap]
  simp only [hsort, hmax]
  rw [hfilter, hmin2, hmax2]

/-- Witness for claim C3, the concrete case of the spec: AFC survivors with
seeds `1, 2, 4, 7` give the pairings `DEN hosts LAC` and `NE hosts PIT`. -/
theorem claim_c3_witness :
    Simulate.seeds_of_teams Simulate.afc_seeds ["DEN", "NE", "PIT", "LAC"]
        = .ok [1, 2, 4, 7]
    ∧ Simulate.pySortNat [1, 2, 4, 7] = [1, 2, 4, 7]
    ∧ Simulate.divisional_pairings Simulate.afc_seeds ["DEN", "NE", "PIT", "LAC"]
        = .ok (("DEN", "LAC"), ("NE", "PIT")) :=
  ⟨rfl, rfl,
   claim_c3 Simulate.afc_seeds ["DEN", "NE", "PIT", "LAC"] [1, 2, 4, 7] 2 4 7
     rfl rfl (by decide) (by decide) (by decide)⟩

/-! ## Structural success lemmas for the bracket resolver -/

/-- A game between two rated teams advances the random cursor by one and
returns one of the two participants. -/
theorem Simulate.simulate_game_ok (team_home team_away : Team)
    (elo_dict : Team → Option ℝ) (hfa : ℝ) (nt : Bool) (rng : Nat → ℝ) (i : Nat)
    (hh : (elo_dict team_home).isSome) (ha : (elo_dict team_away).isSome) :
    ∃ w p, Simulate.simulate_game team_home team_away elo_dict hfa nt rng i
        = (i + 1, .ok (w, p)) ∧ (w = team_home ∨ w = team_away) := by
  obtain ⟨eh, hh'⟩ := Option.isSome_iff_exists.mp hh
  obtain ⟨ea, ha'⟩ := Option.isSome_iff_exists.mp ha
  unfold Simulate.simulate_game
  rw [hh', ha']
  by_cases hu : rng i < Simulate.compute_win_probability eh ea hfa nt
  · refine ⟨team_home, Simulate.compute_win_probability eh ea hfa nt, ?_, Or.inl rfl⟩
    simp only [if_pos hu]
  · refine ⟨team_away, Simulate.compute_win_probability eh ea hfa nt, ?_, Or.inr rfl⟩
    simp only [if_neg hu]

/-- The wild-card round with all seven teams rated: seed 1 advances on a bye
and each fixed pairing yields one of its two participants, in order. -/
theorem Simulate.wc_ok (conf : String) (seeds : Nat → Team)
    (elo_dict : Team → Option ℝ) (hfa : ℝ) (rng : Nat → ℝ) (i : Nat)
    (hr : ∀ s, 1 ≤ s → s ≤ 7 → (elo_dict (seeds s)).isSome) :
    ∃ w1 w2 w3,
      Simulate.simulate_wild_card conf seeds elo_dict hfa rng i
        = (i + 3, .ok [seeds 1, w1, w2, w3])
      ∧ (w1 = seeds 2 ∨ w1 = seeds 7)
      ∧ (w2 = seeds 3 ∨ w2 = seeds 6)
      ∧ (w3 = seeds 4 ∨ w3 = seeds 5) := by
  obtain ⟨w1, p1, hg1, hw1⟩ := Simulate.simulate_game_ok (seeds 2) (seeds 7)
    elo_dict hfa false rng i (hr 2 (by omega) (by omega)) (hr 7 (by omega) (by omega))
  obtain ⟨w2, p2, hg2, hw2⟩ := Simulate.simulate_game_ok (seeds 3) (seeds 6)
    elo_dict hfa false rng (i + 1) (hr 3 (by omega) (by omega)) (hr 6 (by omega) (by omega))
  obtain ⟨w3, p3, hg3, hw3⟩ := Simulate.simulate_game_ok (seeds 4) (seeds 5)
    elo_dict hfa false rng (i + 2) (hr 4 (by omega) (by omega)) (hr 5 (by omega) (by omega))
  refine ⟨w1, w2, w3, ?_, hw1, hw2, hw3⟩
  unfold Simulate.simulate_wild_card
  simp only [Simulate.run_matchups, hg1, hg2, hg3]
  rfl

/-- The divisional round run on its two computed pairings, both rated. -/
theorem Simulate.div_run_ok (conf : String) (seeds : Nat → Team) (wcw : List Team)
    (h1 a1 h2 a2 : Team) (elo_dict : Team → Option ℝ) (hfa : ℝ) (rng : Nat → ℝ) (i : Nat)
    (hp : Simulate.divisional_pairings seeds wcw = .ok ((h1, a1), (h2, a2)))
    (hh1 : (elo_dict h1).isSome) (ha1 : (elo_dict a1).isSome)
    (hh2 : (elo_dict h2).isSome) (ha2 : (elo_dict a2).isSome) :
    ∃ d1 d2, Simulate.simulate_divisional conf wcw seeds elo_dict hfa rng i
        = (i + 2, .ok [d1, d2])
      ∧ (d1 = h1 ∨ d1 = a1) ∧ (d2 = h2 ∨ d2 = a2) := by
  obtain ⟨d1, p1, hg1, hd1⟩ := Simulate.simulate_game_ok h1 a1 elo_dict hfa false rng i hh1 ha1
  obtain ⟨d2, p2, hg2, hd2⟩ := Simulate.simulate_game_ok h2 a2 elo_dict hfa false rng (i + 1) hh2 ha2
  refine ⟨d1, d2, ?_, hd1, hd2⟩
  unfold Simulate.simulate_divisional
  rw [hp]
  simp only [hg1, hg2]

/-- The conference championship run on its computed pairing, both rated. -/
theorem Simulate.champ_run_ok (conf : String) (seeds : Nat → Team) (dw : List Team)
    (th ta : Team) (elo_dict : Team → Option ℝ) (hfa : ℝ) (rng : Nat → ℝ) (i : Nat)
    (hp : Simulate.championship_pairing seeds dw = .ok (th, ta))
    (hh : (elo_dict th).isSome) (ha : (elo_dict ta).isSome) :
    ∃ c, Simulate.simulate_conference_championship conf dw seeds elo_dict hfa rng i
        = (i + 1, .ok c) ∧ (c = th ∨ c = ta) := by
  obtain ⟨c, p, hg, hc⟩ := Simulate.simulate_game_ok th ta elo_dict hfa false rng i hh ha
  refine ⟨c, ?_, hc⟩
  unfold Simulate.simulate_conference_championship
  rw [hp]
  simp only [hg]

/-- The Super Bowl between two rated champions. -/
theorem Simulate.sb_ok (afc_champ nfc_champ : Team) (elo_dict : Team → Option ℝ)
    (hfa : ℝ) (rng : Nat → ℝ) (i : Nat)
    (hh : (elo_dict afc_champ).isSome) (ha : (elo_dict nfc_champ).isSome) :
    ∃ c, Simulate.simulate_super_bowl afc_champ nfc_champ elo_dict hfa rng i
        = (i + 1, .ok c) ∧ (c = afc_champ ∨ c = nfc_champ) := by
  obtain ⟨c, p, hg, hc⟩ := Simulate.simulate_game_ok afc_champ nfc_champ elo_dict hfa true rng i hh ha
  refine ⟨c, ?_, hc⟩
  unfold Simulate.simulate_super_bowl
  simp only [hg]

/-- AFC divisional round for each of the eight possible wild-card outcomes:
two winners, distinct, drawn from the wild-card survivors. -/
theorem Simulate.div_ok_afc (w1 w2 w3 : Team) (elo_dict : Team → Option ℝ)
    (hfa : ℝ) (rng : Nat → ℝ) (i : Nat)
    (hr : ∀ t ∈ Simulate.afc_teams, (elo_dict t).isSome)
    (hw1 : w1 = Simulate.afc_seeds 2 ∨ w1 = Simulate.afc_seeds 7)
    (hw2 : w2 = Simulate.afc_seeds 3 ∨ w2 = Simulate.afc_seeds 6)
    (hw3 : w3 = Simulate.afc_seeds 4 ∨ w3 = Simulate.afc_seeds 5) :
    ∃ d1 d2, Simulate.simulate_divisional "AFC" [Simulate.afc_seeds 1, w1, w2, w3]
        Simulate.afc_seeds elo_dict hfa rng i = (i + 2, .ok [d1, d2])
      ∧ d1 ∈ [Simulate.afc_seeds 1, w1, w2, w3] ∧ d2 ∈ [Simulate.afc_seeds 1, w1, w2, w3]
      ∧ d1 ≠ d2 ∧ d1 ∈ Simulate.afc_teams ∧ d2 ∈ Simulate.afc_teams := by
  rcases hw1 with rfl | rfl <;> rcases hw2 with rfl | rfl <;> rcases hw3 with rfl | rfl
  · obtain ⟨d1, d2, hdiv, hd1, hd2⟩ := Simulate.div_run_ok "AFC" Simulate.afc_seeds
      [Simulate.afc_seeds 1, Simulate.afc_seeds 2, Simulate.afc_seeds 3, Simulate.afc_seeds 4]
      "DEN" "PIT" "NE" "JAX" elo_dict hfa rng i rfl
      (hr _ (by decide)) (hr _ (by decide)) (hr _ (by decide)) (hr _ (by decide))
    exact ⟨d1, d2, hdiv, by rcases hd1 with rfl | rfl <;> decide,
      by rcases hd2 with rfl | rfl <;> decide,
      by rcases hd1 with rfl | rfl <;> rcases hd2 with rfl | rfl <;> decide,
      by rcases hd1 with rfl | rfl <;> decide, by rcases hd2 with rfl | rfl <;> decide⟩
  · obtain ⟨d1, d2, hdiv, hd1, hd2⟩ := Simulate.div_run_ok "AFC" Simulate.afc_seeds
      [Simulate.afc_seeds 1, Simulate.afc_seeds 2, Simulate.afc_seeds 3, Simulate.afc_seeds 5]
      "DEN" "HOU" "NE" "JAX" elo_dict hfa rng i rfl
      (hr _ (by decide)) (hr _ (by decide)) (hr _ (by decide)) (hr _ (by decide))
    exact ⟨d1, d2, hdiv, by rcases hd1 with rfl | rfl <;> decide,
      by rcases hd2 with rfl | rfl <;> decide,
      by rcases hd1 with rfl | rfl <;> rcases hd2 with rfl | rfl <;> decide,
      by rcases hd1 with rfl | rfl <;> decide, by rcases hd2 with rfl | rfl <;> decide⟩
  · obtain ⟨d1, d2, hdiv, hd1, hd2⟩ := Simulate.div_run_ok "AFC" Simulate.afc_seeds
      [Simulate.afc_seeds 1, Simulate.afc_seeds 2, Simulate.afc_seeds 6, Simulate.afc_seeds 4]
      "DEN" "BUF" "NE" "PIT" elo_dict hfa rng i rfl
      (hr _ (by decide)) (hr _ (by decide)) (hr _ (by decide)) (hr _ (by decide))
    exact ⟨d1, d2, hdiv, by rcases hd1 with rfl | rfl <;> decide,
      by rcases hd2 with rfl | rfl <;> decide,
      by rcases hd1 with rfl | rfl <;> rcases hd2 with rfl | rfl <;> decide,
      by rcases hd1 with rfl | rfl <;> decide, by rcases hd2 with rfl | rfl <;> decide⟩
  · obtain ⟨d1, d2, hdiv, hd1, hd2⟩ := Simulate.div_run_ok "AFC" Simulate.afc_seeds
      [Simulate.afc_seeds 1, Simulate.afc_seeds 2, Simulate.afc_seeds 6, Simulate.afc_seeds 5]
      "DEN" "BUF" "NE" "HOU" elo_dict hfa rng i rfl
      (hr _ (by decide)) (hr _ (by decide)) (hr _ (by decide)) (hr _ (by decide))
    exact ⟨d1, d2, hdiv, by rcases hd1 with rfl | rfl <;> decide,
      by rcases hd2 with rfl | rfl <;> decide,
      by rcases hd1 with rfl | rfl <;> rcases hd2 with rfl | rfl <;> decide,
      by rcases hd1 with rfl | rfl <;> decide, by rcases hd2 with rfl | rfl <;> decide⟩
  · obtain ⟨d1, d2, hdiv, hd1, hd2⟩ := Simulate.div_run_ok "AFC" Simulate.afc_seeds
      [Simulate.afc_seeds 1, Simulate.afc_seeds 7, Simulate.afc_seeds 3, Simulate.afc_seeds 4]
      "DEN" "LAC" "JAX" "PIT" elo_dict hfa rng i rfl
      (hr _ (by decide)) (hr _ (by decide)) (hr _ (by decide)) (hr _ (by decide))
    exact ⟨d1, d2, hdiv, by rcases hd1 with rfl | rfl <;> decide,
      by rcases hd2 with rfl | rfl <;> decide,
      by rcases hd1 with rfl | rfl <;> rcases hd2 with rfl | rfl <;> decide,
      by rcases hd1 with rfl | rfl <;> decide, by rcases hd2 with rfl | rfl <;> decide⟩
  · obtain ⟨d1, d2, hdiv, hd1, hd2⟩ := Simulate.div_run_ok "AFC" Simulate.afc_seeds
      [Simulate.afc_seeds 1, Simulate.afc_seeds 7, Simulate.afc_seeds 3, Simulate.afc_seeds 5]
      "DEN" "LAC" "JAX" "HOU" elo_dict hfa rng i rfl
      (hr _ (by decide)) (hr _ (by decide)) (hr _ (by decide)) (hr _ (by decide))
    exact ⟨d1, d2, hdiv, by rcases hd1 with rfl | rfl <;> decide,
      by rcases hd2 with rfl | rfl <;> decide,
      by rcases hd1 with rfl | rfl <;> rcases hd2 with rfl | rfl <;> decide,
      by rcases hd1 with rfl | rfl <;> decide, by rcases hd2 with rfl | rfl <;> decide⟩
  · obtain ⟨d1, d2, hdiv, hd1, hd2⟩ := Simulate.div_run_ok "AFC" Simulate.afc_seeds
      [Simulate.afc_seeds 1, Simulate.afc_seeds 7, Simulate.afc_seeds 6, Simulate.afc_seeds 4]
      "DEN" "LAC" "PIT" "BUF" elo_dict hfa rng i rfl
      (hr _ (by decide)) (hr _ (by decide)) (hr _ (by decide)) (hr _ (by decide))
    exact ⟨d1, d2, hdiv, by rcases hd1 with rfl | rfl <;> decide,
      by rcases hd2 with rfl | rfl <;> decide,
      by rcases hd1 with rfl | rfl <;> rcases hd2 with rfl | rfl <;> decide,
      by rcases hd1 with rfl | rfl <;> decide, by rcases hd2 with rfl | rfl <;> decide⟩
  · obtain ⟨d1, d2, hdiv, hd1, hd2⟩ := Simulate.div_run_ok "AFC" Simulate.afc_seeds
      [Simulate.afc_seeds 1, Simulate.afc_seeds 7, Simulate.afc_seeds 6, Simulate.afc_seeds 5]
      "DEN" "LAC" "HOU" "BUF" elo_dict hfa rng i rfl
      (hr _ (by decide)) (hr _ (by decide)) (hr _ (by decide)) (hr _ (by decide))
    exact ⟨d1, d2, hdiv, by rcases hd1 with rfl | rfl <;> decide,
      by rcases hd2 with rfl | rfl <;> decide,
      by rcases hd1 with rfl | rfl <;> rcases hd2 with rfl | rfl <;> decide,
      by rcases hd1 with rfl | rfl <;> decide, by rcases hd2 with rfl | rfl <;> decide⟩

/-- Every AFC team maps back to a seed whose entry is that team. -/
theorem Simulate.t2s_afc (d : Team) (hd : d ∈ Simulate.afc_teams) :
    ∃ s, Simulate.team_to_seed Simulate.afc_seeds d = some s
      ∧ Simulate.afc_seeds s = d := by
  fin_cases hd
  · exact ⟨1, rfl, rfl⟩
  · exact ⟨2, rfl, rfl⟩
  · exact ⟨3, rfl, rfl⟩
  · exact ⟨4, rfl, rfl⟩
  · exact ⟨5, rfl, rfl⟩
  · exact ⟨6, rfl, rfl⟩
  · exact ⟨7, rfl, rfl⟩

/-- Every NFC team maps back to a seed whose entry is that team. -/
theorem Simulate.t2s_nfc (d : Team) (hd : d ∈ Simulate.nfc_teams) :
    ∃ s, Simulate.team_to_seed Simulate.nfc_seeds d = some s
      ∧ Simulate.nfc_seeds s = d := by
  fin_cases hd
  · exact ⟨1, rfl, rfl⟩
  · exact ⟨2, rfl, rfl⟩
  · exact ⟨3, rfl, rfl⟩
  · exact ⟨4, rfl, rfl⟩
  · exact ⟨5, rfl, rfl⟩
  · exact ⟨6, rfl, rfl⟩
  · exact ⟨7, rfl, rfl⟩

/-- The conference championship between two rated divisional winners with
known seeds: one game, won by one of the two. -/
theorem Simulate.champ_ok_generic (conf : String) (seeds : Nat → Team)
    (d1 d2 : Team) (s1 s2 : Nat)
    (ht1 : Simulate.team_to_seed seeds d1 = some s1)
    (ht2 : Simulate.team_to_seed seeds d2 = some s2)
    (hb1 : seeds s1 = d1) (hb2 : seeds s2 = d2)
    (elo_dict : Team → Option ℝ) (hfa : ℝ) (rng : Nat → ℝ) (i : Nat)
    (hd1 : (elo_dict d1).isSome) (hd2 : (elo_dict d2).isSome) :
    ∃ c, Simulate.simulate_conference_championship conf [d1, d2] seeds elo_dict hfa rng i
        = (i + 1, .ok c) ∧ (c = d1 ∨ c = d2) := by
  have hmapM : Simulate.seeds_of_teams seeds [d1, d2] = .ok [s1, s2] := by
    simp [Simulate.seeds_of_teams, List.mapM, List.mapM.loop, ht1, ht2,
      Bind.bind, Except.bind, Pure.pure, Except.pure]
  by_cases hcmp : s2 < s1
  · have hpair : Simulate.championship_pairing seeds [d1, d2] = .ok (seeds s2, seeds s1) := by
      unfold Simulate.championship_pairing
      rw [hmapM]
      have hsort : Simulate.pySortNat [s1, s2] = [s2, s1] := by
        simp [Simulate.pySortNat, Simulate.pySortBy, Simulate.insertOrd, hcmp]
      simp only [hsort]
      have hmin : Simulate.pyMin [s2, s1] = s2 := by
        show min s2 s1 = s2
        exact Nat.min_eq_left (le_of_lt hcmp)
      have hmax : Simulate.pyMax [s2, s1] = s1 := by
        show max (max 0 s2) s1 = s1
        rw [Nat.max_eq_right (Nat.zero_le s2), Nat.max_eq_right (le_of_lt hcmp)]
      rw [hmin, hmax]
    obtain ⟨c, hc, hor⟩ := Simulate.champ_run_ok conf seeds [d1, d2] (seeds s2) (seeds s1)
      elo_dict hfa rng i hpair (by rw [hb2]; exact hd2) (by rw [hb1]; exact hd1)
    refine ⟨c, hc, ?_⟩
    rw [hb1, hb2] at hor
    exact hor.symm
  · have hpair : Simulate.championship_pairing seeds [d1, d2] = .ok (seeds s1, seeds s2) := by
      unfold Simulate.championship_pairing
      rw [hmapM]
      have hsort : Simulate.pySortNat [s1, s2] = [s1, s2] := by
        simp [Simulate.pySortNat, Simulate.pySortBy, Simulate.insertOrd, hcmp]
      simp only [hsort]
      have hmin : Simulate.pyMin [s1, s2] = s1 := by
        show min s1 s2 = s1
        exact Nat.min_eq_left (Nat.le_of_not_lt hcmp)
      have hmax : Simulate.pyMax [s1, s2] = s2 := by
        show max (max 0 s1) s2 = s2
        rw [Nat.max_eq_right (Nat.zero_le s1), Nat.max_eq_right (Nat.le_of_not_lt hcmp)]
      rw [hmin, hmax]
    obtain ⟨c, hc, hor⟩ := Simulate.champ_run_ok conf seeds [d1, d2] (seeds s1) (seeds s2)
      elo_dict hfa rng i hpair (by rw [hb1]; exact hd1) (by rw [hb2]; exact hd2)
    refine ⟨c, hc, ?_⟩
    rw [hb1, hb2] at hor
    exact hor

/-- NFC divisional round for each of the eight possible wild-card outcomes. -/
theorem Simulate.div_ok_nfc (w1 w2 w3 : Team) (elo_dict : Team → Option ℝ)
    (hfa : ℝ) (rng : Nat → ℝ) (i : Nat)
    (hr : ∀ t ∈ Simulate.nfc_teams, (elo_dict t).isSome)
    (hw1 : w1 = Simulate.nfc_seeds 2 ∨ w1 = Simulate.nfc_seeds 7)
    (hw2 : w2 = Simulate.nfc_seeds 3 ∨ w2 = Simulate.nfc_seeds 6)
    (hw3 : w3 = Simulate.nfc_seeds 4 ∨ w3 = Simulate.nfc_seeds 5) :
    ∃ d1 d2, Simulate.simulate_divisional "NFC" [Simulate.nfc_seeds 1, w1, w2, w3]
        Simulate.nfc_seeds elo_dict hfa rng i = (i + 2, .ok [d1, d2])
      ∧ d1 ∈ [Simulate.nfc_seeds 1, w1, w2, w3] ∧ d2 ∈ [Simulate.nfc_seeds 1, w1, w2, w3]
      ∧ d1 ≠ d2 ∧ d1 ∈ Simulate.nfc_teams ∧ d2 ∈ Simulate.nfc_teams := by
  rcases hw1 with rfl | rfl <;> rcases hw2 with rfl | rfl <;> rcases hw3 with rfl | rfl
  · obtain ⟨d1, d2, hdiv, hd1, hd2⟩ := Simulate.div_run_ok "NFC" Simulate.nfc_seeds
      [Simulate.nfc_seeds 1, Simulate.nfc_seeds 2, Simulate.nfc_seeds 3, Simulate.nfc_seeds 4]
      "SEA" "CAR" "CHI" "PHI" elo_dict hfa rng i rfl
      (hr _ (by decide)) (hr _ (by decide)) (hr _ (by decide)) (hr _ (by decide))
    exact ⟨d1, d2, hdiv, by rcases hd1 with rfl | rfl <;> decide,
      by rcases hd2 with rfl | rfl <;> decide,
      by rcases hd1 with rfl | rfl <;> rcases hd2 with rfl | rfl <;> decide,
      by rcases hd1 with rfl | rfl <;> decide, by rcases hd2 with rfl | rfl <;> decide⟩
  · obtain ⟨d1, d2, hdiv, hd1, hd2⟩ := Simulate.div_run_ok "NFC" Simulate.nfc_seeds
      [Simulate.nfc_seeds 1, Simulate.nfc_seeds 2, Simulate.nfc_seeds 3, Simulate.nfc_seeds 5]
      "SEA" "LA" "CHI" "PHI" elo_dict hfa rng i rfl
      (hr _ (by decide)) (hr _ (by decide)) (hr _ (by decide)) (hr _ (by decide))
    exact ⟨d1, d2, hdiv, by rcases hd1 with rfl | rfl <;> decide,
      by rcases hd2 with rfl | rfl <;> decide,
      by rcases hd1 with rfl | rfl <;> rcases hd2 with rfl | rfl <;> decide,
      by rcases hd1 with rfl | rfl <;> decide, by rcases hd2 with rfl | rfl <;> decide⟩
  · obtain ⟨d1, d2, hdiv, hd1, hd2⟩ := Simulate.div_run_ok "NFC" Simulate.nfc_seeds
      [Simulate.nfc_seeds 1, Simulate.nfc_seeds 2, Simulate.nfc_seeds 6, Simulate.nfc_seeds 4]
      "SEA" "SF" "CHI" "CAR" elo_dict hfa rng i rfl
      (hr _ (by decide)) (hr _ (by decide)) (hr _ (by decide)) (hr _ (by decide))
    exact ⟨d1, d2, hdiv, by rcases hd1 with rfl | rfl <;> decide,
      by rcases hd2 with rfl | rfl <;> decide,
      by rcases hd1 with rfl | rfl <;> rcases hd2 with rfl | rfl <;> decide,
      by rcases hd1 with rfl | rfl <;> decide, by rcases hd2 with rfl | rfl <;> decide⟩
  · obtain ⟨d1, d2, hdiv, hd1, hd2⟩ := Simulate.div_run_ok "NFC" Simulate.nfc_seeds
      [Simulate.nfc_seeds 1, Simulate.nfc_seeds 2, Simulate.nfc_seeds 6, Simulate.nfc_seeds 5]
      "SEA" "SF" "CHI" "LA" elo_dict hfa rng i rfl
      (hr _ (by decide)) (hr _ (by decide)) (hr _ (by decide)) (hr _ (by decide))
    exact ⟨d1, d2, hdiv, by rcases hd1 with rfl | rfl <;> decide,
      by rcases hd2 with rfl | rfl <;> decide,
      by rcases hd1 with rfl | rfl <;> rcases hd2 with rfl | rfl <;> decide,
      by rcases hd1 with rfl | rfl <;> decide, by rcases hd2 with rfl | rfl <;> decide⟩
  · obtain ⟨d1, d2, hdiv, hd1, hd2⟩ := Simulate.div_run_ok "NFC" Simulate.nfc_seeds
      [Simulate.nfc_seeds 1, Simulate.nfc_seeds 7, Simulate.nfc_seeds 3, Simulate.nfc_seeds 4]
      "SEA" "GB" "PHI" "CAR" elo_dict hfa rng i rfl
      (hr _ (by decide)) (hr _ (by decide)) (hr _ (by decide)) (hr _ (by decide))
    exact ⟨d1, d2, hdiv, by rcases hd1 with rfl | rfl <;> decide,
      by rcases hd2 with rfl | rfl <;> decide,
      by rcases hd1 with rfl | rfl <;> rcases hd2 with rfl | rfl <;> decide,
      by rcases hd1 with rfl | rfl <;> decide, by rcases hd2 with rfl | rfl <;> decide⟩
  · obtain ⟨d1, d2, hdiv, hd1, hd2⟩ := Simulate.div_run_ok "NFC" Simulate.nfc_seeds
      [Simulate.nfc_seeds 1, Simulate.nfc_seeds 7, Simulate.nfc_seeds 3, Simulate.nfc_seeds 5]
      "SEA" "GB" "PHI" "LA" elo_dict hfa rng i rfl
      (hr _ (by decide)) (hr _ (by decide)) (hr _ (by decide)) (hr _ (by decide))
    exact ⟨d1, d2, hdiv, by rcases hd1 with rfl | rfl <;> decide,
      by rcases hd2 with rfl | rfl <;> decide,
      by rcases hd1 with rfl | rfl <;> rcases hd2 with rfl | rfl <;> decide,
      by rcases hd1 with rfl | rfl <;> decide, by rcases hd2 with rfl | rfl <;> decide⟩
  · obtain ⟨d1, d2, hdiv, hd1, hd2⟩ := Simulate.div_run_ok "NFC" Simulate.nfc_seeds
      [Simulate.nfc_seeds 1, Simulate.nfc_seeds 7, Simulate.nfc_seeds 6, Simulate.nfc_seeds 4]
      "SEA" "GB" "CAR" "SF" elo_dict hfa rng i rfl
      (hr _ (by decide)) (hr _ (by decide)) (hr _ (by decide)) (hr _ (by decide))
    exact ⟨d1, d2, hdiv, by rcases hd1 with rfl | rfl <;> decide,
      by rcases hd2 with rfl | rfl <;> decide,
      by rcases hd1 with rfl | rfl <;> rcases hd2 with rfl | rfl <;> decide,
      by rcases hd1 with rfl | rfl <;> decide, by rcases hd2 with rfl | rfl <;> decide⟩
  · obtain ⟨d1, d2, hdiv, hd1, hd2⟩ := Simulate.div_run_ok "NFC" Simulate.nfc_seeds
      [Simulate.nfc_seeds 1, Simulate.nfc_seeds 7, Simulate.nfc_seeds 6, Simulate.nfc_seeds 5]
      "SEA" "GB" "LA" "SF" elo_dict hfa rng i rfl
      (hr _ (by decide)) (hr _ (by decide)) (hr _ (by decide)) (hr _ (by decide))
    exact ⟨d1, d2, hdiv, by rcases hd1 with rfl | rfl <;> decide,
      by rcases hd2 with rfl | rfl <;> decide,
      by rcases hd1 with rfl | rfl <;> rcases hd2 with rfl | rfl <;> decide,
      by rcases hd1 with rfl | rfl <;> decide, by rcases hd2 with rfl | rfl <;> decide⟩

/-- The full AFC half-bracket with all seven teams rated: wild card,
divisional and championship succeed, consuming six draws, and every
advancing team comes from the previous round's survivors. -/
theorem Simulate.conf_ok_afc (elo_dict : Team → Option ℝ) (hfa : ℝ)
    (rng : Nat → ℝ) (i : Nat)
    (hr : ∀ t ∈ Simulate.afc_teams, (elo_dict t).isSome) :
    ∃ wcw d1 d2 c,
      Simulate.simulate_wild_card "AFC" Simulate.afc_seeds elo_dict hfa rng i
        = (i + 3, .ok wcw)
      ∧ Simulate.simulate_divisional "AFC" wcw Simulate.afc_seeds elo_dict hfa rng (i + 3)
        = (i + 5, .ok [d1, d2])
      ∧ Simulate.simulate_conference_championship "AFC" [d1, d2] Simulate.afc_seeds
          elo_dict hfa rng (i + 5) = (i + 6, .ok c)
      ∧ (∀ t ∈ wcw, t ∈ Simulate.afc_teams)
      ∧ d1 ∈ wcw ∧ d2 ∈ wcw ∧ d1 ≠ d2 ∧ (c = d1 ∨ c = d2) := by
  have hseeds : ∀ s, 1 ≤ s → s ≤ 7 → (elo_dict (Simulate.afc_seeds s)).isSome := by
    intro s hs1 hs7
    interval_cases s <;> exact hr _ (by decide)
  obtain ⟨w1, w2, w3, hwc, hw1, hw2, hw3⟩ :=
    Simulate.wc_ok "AFC" Simulate.afc_seeds elo_dict hfa rng i hseeds
  obtain ⟨d1, d2, hdiv, hd1w, hd2w, hne, hd1m, hd2m⟩ :=
    Simulate.div_ok_afc w1 w2 w3 elo_dict hfa rng (i + 3) hr hw1 hw2 hw3
  obtain ⟨s1, ht1, hb1⟩ := Simulate.t2s_afc d1 hd1m
  obtain ⟨s2, ht2, hb2⟩ := Simulate.t2s_afc d2 hd2m
  obtain ⟨c, hconf, hc⟩ := Simulate.champ_ok_generic "AFC" Simulate.afc_seeds d1 d2 s1 s2
    ht1 ht2 hb1 hb2 elo_dict hfa rng (i + 5) (hr d1 hd1m) (hr d2 hd2m)
  refine ⟨[Simulate.afc_seeds 1, w1, w2, w3], d1, d2, c, hwc, hdiv, hconf, ?_,
    hd1w, hd2w, hne, hc⟩
  intro t ht
  rcases List.mem_cons.mp ht with rfl | ht
  · decide
  rcases List.mem_cons.mp ht with rfl | ht
  · rcases hw1 with rfl | rfl <;> decide
  rcases List.mem_cons.mp ht with rfl | ht
  · rcases hw2 with rfl | rfl <;> decide
  rcases List.mem_cons.mp ht with rfl | ht
  · rcases hw3 with rfl | rfl <;> decide
  · exact absurd ht (List.not_mem_nil t)

/-- The full NFC half-bracket with all seven teams rated. -/
theorem Simulate.conf_ok_nfc (elo_dict : Team → Option ℝ) (hfa : ℝ)
    (rng : Nat → ℝ) (i : Nat)
    (hr : ∀ t ∈ Simulate.nfc_teams, (elo_dict t).isSome) :
    ∃ wcw d1 d2 c,
      Simulate.simulate_wild_card "NFC" Simulate.nfc_seeds elo_dict hfa rng i
        = (i + 3, .ok wcw)
      ∧ Simulate.simulate_divisional "NFC" wcw Simulate.nfc_seeds elo_dict hfa rng (i + 3)
        = (i + 5, .ok [d1, d2])
      ∧ Simulate.simulate_conference_championship "NFC" [d1, d2] Simulate.nfc_seeds
          elo_dict hfa rng (i + 5) = (i + 6, .ok c)
      ∧ (∀ t ∈ wcw, t ∈ Simulate.nfc_teams)
      ∧ d1 ∈ wcw ∧ d2 ∈ wcw ∧ d1 ≠ d2 ∧ (c = d1 ∨ c = d2) := by
  have hseeds : ∀ s, 1 ≤ s → s ≤ 7 → (elo_dict (Simulate.nfc_seeds s)).isSome := by
    intro s hs1 hs7
    interval_cases s <;> exact hr _ (by decide)
  obtain ⟨w1, w2, w3, hwc, hw1, hw2, hw3⟩ :=
    Simulate.wc_ok "NFC" Simulate.nfc_seeds elo_dict hfa rng i hseeds
  obtain ⟨d1, d2, hdiv, hd1w, hd2w, hne, hd1m, hd2m⟩ :=
    Simulate.div_ok_nfc w1 w2 w3 elo_dict hfa rng (i + 3) hr hw1 hw2 hw3
  obtain ⟨s1, ht1, hb1⟩ := Simulate.t2s_nfc d1 hd1m
  obtain ⟨s2, ht2, hb2⟩ := Simulate.t2s_nfc d2 hd2m
  obtain ⟨c, hconf, hc⟩ := Simulate.champ_ok_generic "NFC" Simulate.nfc_seeds d1 d2 s1 s2
    ht1 ht2 hb1 hb2 elo_dict hfa rng (i + 5) (hr d1 hd1m) (hr d2 hd2m)
  refine ⟨[Simulate.nfc_seeds 1, w1, w2, w3], d1, d2, c, hwc, hdiv, hconf, ?_,
    hd1w, hd2w, hne, hc⟩
  intro t ht
  rcases List.mem_cons.mp ht with rfl | ht
  · decide
  rcases List.mem_cons.mp ht with rfl | ht
  · rcases hw1 with rfl | rfl <;> decide
  rcases List.mem_cons.mp ht with rfl | ht
  · rcases hw2 with rfl | rfl <;> decide
  rcases List.mem_cons.mp ht with rfl | ht
  · rcases hw3 with rfl | rfl <;> decide
  · exact absurd ht (List.not_mem_nil t)

/-- Occurrences of a singleton's element are dominated by occurrences in any
list containing it. -/
theorem Simulate.cnt_single_le (t a : Team) (l : List Team) (ha : a ∈ l) :
    List.count t [a] ≤ List.count t l := by
  by_cases h : a = t
  · subst h
    have h1 : List.count a [a] = 1 := by rw [List.count_singleton]; simp
    rw [h1]
    exact List.count_pos_iff.mpr ha
  · have h0 : List.count t [a] = 0 := by rw [List.count_singleton]; simp [h]
    rw [h0]
    exact Nat.zero_le _

/-- Occurrences in a two-element list of distinct members of `l` are
dominated by occurrences in `l`. -/
theorem Simulate.cnt_pair_le (t a b : Team) (l : List Team) (hne : a ≠ b)
    (ha : a ∈ l) (hb : b ∈ l) :
    List.count t [a, b] ≤ List.count t l := by
  by_cases hat : a = t <;> by_cases hbt : b = t
  · exact absurd (hat.trans hbt.symm) hne
  · subst hat
    have h1 : List.count a [a, b] = 1 := by
      rw [List.count_cons, List.count_singleton]; simp [hbt]
    rw [h1]
    exact List.count_pos_iff.mpr ha
  · subst hbt
    have h1 : List.count b [a, b] = 1 := by
      rw [List.count_cons, List.count_singleton]; simp [hat]
    rw [h1]
    exact List.count_pos_iff.mpr hb
  · have h0 : List.count t [a, b] = 0 := by
      rw [List.count_cons, List.count_singleton]; simp [hat, hbt]
    rw [h0]
    exact Nat.zero_le _

/-- The whole bracket with all fourteen teams rated: it succeeds, consumes
exactly thirteen draws, and its milestone lists are related by the
containment structure of the tournament. -/
theorem Simulate.bracket_ok (elo_dict : Team → Option ℝ) (hfa : ℝ)
    (rng : Nat → ℝ) (i : Nat)
    (hr : ∀ t ∈ Simulate.all_playoff_teams, (elo_dict t).isSome) :
    ∃ r : Simulate.TrialOutcome,
      Simulate.simulate_one_bracket elo_dict hfa rng i = (i + 13, .ok r)
      ∧ (∀ t, r.super_bowl.count t ≤ r.conf_champ.count t)
      ∧ (∀ t, r.conf_champ.count t ≤ r.divisional.count t)
      ∧ r.champion ∈ r.super_bowl
      ∧ (∀ t ∈ r.divisional, t ∈ Simulate.all_playoff_teams) := by
  have hra : ∀ t ∈ Simulate.afc_teams, (elo_dict t).isSome := fun t ht =>
    hr t (List.mem_append_left _ ht)
  have hrn : ∀ t ∈ Simulate.nfc_teams, (elo_dict t).isSome := fun t ht =>
    hr t (List.mem_append_right _ ht)
  obtain ⟨wcwA, dA1, dA2, cA, hwcA, hdivA, hconfA, hsubA, hdA1, hdA2, hneA, hcA⟩ :=
    Simulate.conf_ok_afc elo_dict hfa rng i hra
  obtain ⟨wcwN, dN1, dN2, cN, hwcN, hdivN, hconfN, hsubN, hdN1, hdN2, hneN, hcN⟩ :=
    Simulate.conf_ok_nfc elo_dict hfa rng (i + 6) hrn
  have hcAm : cA ∈ Simulate.afc_teams := by
    rcases hcA with rfl | rfl
    · exact hsubA _ hdA1
    · exact hsubA _ hdA2
  have hcNm : cN ∈ Simulate.nfc_teams := by
    rcases hcN with rfl | rfl
    · exact hsubN _ hdN1
    · exact hsubN _ hdN2
  obtain ⟨champ, hsb, hchamp⟩ := Simulate.sb_ok cA cN elo_dict hfa rng (i + 6 + 6)
    (hra cA hcAm) (hrn cN hcNm)
  refine ⟨{ divisional := wcwA ++ wcwN
            conf_champ := [dA1, dA2] ++ [dN1, dN2]
            super_bowl := [cA, cN]
            champion := champ }, ?_, ?_, ?_, ?_, ?_⟩
  · unfold Simulate.simulate_one_bracket
    simp only [hwcA, hdivA, hconfA, hwcN, hdivN, hconfN, hsb]
  · intro t
    have hsplit : ([cA, cN] : List Team) = [cA] ++ [cN] := rfl
    simp only [hsplit, List.count_append]
    exact Nat.add_le_add
      (Simulate.cnt_single_le t cA [dA1, dA2] (by rcases hcA with rfl | rfl <;> simp))
      (Simulate.cnt_single_le t cN [dN1, dN2] (by rcases hcN with rfl | rfl <;> simp))
  · intro t
    simp only [List.count_append]
    exact Nat.add_le_add
      (Simulate.cnt_pair_le t dA1 dA2 wcwA hneA hdA1 hdA2)
      (Simulate.cnt_pair_le t dN1 dN2 wcwN hneN hdN1 hdN2)
  · rcases hchamp with rfl | rfl <;> simp
  · intro t ht
    rcases List.mem_append.mp ht with h | h
    · exact List.mem_append_left _ (hsubA t h)
    · exact List.mem_append_right _ (hsubN t h)

/-- Claim C1 counterexample: with the NFC seed-2 team `CHI` absent from the
rating table (all other teams rated), the run does fail — but only after the
whole AFC half-bracket has been resolved: the random cursor stands at 6 when
the `KeyError` is raised, so six games were resolved and six random draws
made before the failure, contradicting fail-fast-before-any-simulation-work. -/
theorem claim_c1_counterexample :
    Simulate.simulate_one_bracket
        (fun t : Team => if t = "CHI" then (none : Option ℝ) else some 1500)
        55 (fun _ => (0 : ℝ)) 0
      = (6, .error (.keyError "CHI")) ∧ (6 : Nat) ≠ 0 := by
  refine ⟨?_, by decide⟩
  have hra : ∀ t ∈ Simulate.afc_teams,
      ((fun t : Team => if t = "CHI" then (none : Option ℝ) else some 1500) t).isSome := by
    intro t ht
    fin_cases ht <;> rfl
  obtain ⟨wcwA, dA1, dA2, cA, hwcA, hdivA, hconfA, _, _, _, _, _⟩ :=
    Simulate.conf_ok_afc
      (fun t : Team => if t = "CHI" then (none : Option ℝ) else some 1500)
      55 (fun _ => (0 : ℝ)) 0 hra
  norm_num at hwcA hdivA hconfA
  have hgame : Simulate.simulate_game (Simulate.nfc_seeds 2) (Simulate.nfc_seeds 7)
      (fun t : Team => if t = "CHI" then (none : Option ℝ) else some 1500)
      55 false (fun _ => (0 : ℝ)) 6 = (6, .error (.keyError "CHI")) := rfl
  have hnfc : Simulate.simulate_wild_card "NFC" Simulate.nfc_seeds
      (fun t : Team => if t = "CHI" then (none : Option ℝ) else some 1500)
      55 (fun _ => (0 : ℝ)) 6 = (6, .error (.keyError "CHI")) := by
    unfold Simulate.simulate_wild_card
    simp only [Simulate.run_matchups, hgame]
  unfold Simulate.simulate_one_bracket
  simp only [hwcA, hdivA, hconfA, hnfc]

/-! ## Characterizing the counts accumulator -/

/-- Key membership after one defaultdict access. -/
theorem Simulate.bump_keys_mem (st : Simulate.CState) (t x : Team)
    (f : Simulate.Counts → Simulate.Counts) :
    x ∈ (Simulate.bump st t f).1 ↔ x ∈ st.1 ∨ x = t := by
  unfold Simulate.bump
  by_cases h : t ∈ st.1
  · simp only [if_pos h]
    constructor
    · exact Or.inl
    · rintro (hx | rfl)
      · exact hx
      · exact h
  · simp only [if_neg h, List.mem_append, List.mem_singleton]

/-- Counter table after one defaultdict access. -/
theorem Simulate.bump_cnt (st : Simulate.CState) (t x : Team)
    (f : Simulate.Counts → Simulate.Counts) :
    (Simulate.bump st t f).2 x = if x = t then f (st.2 x) else st.2 x := rfl

/-- The key list stays duplicate-free under one defaultdict access. -/
theorem Simulate.bump_nodup (st : Simulate.CState) (t : Team)
    (f : Simulate.Counts → Simulate.Counts) (h : st.1.Nodup) :
    (Simulate.bump st t f).1.Nodup := by
  unfold Simulate.bump
  by_cases ht : t ∈ st.1
  · simpa [if_pos ht] using h
  · simp only [if_neg ht]
    simp [List.nodup_append, h, ht]

/-- Counter table after folding one increment over a whole list. -/
theorem Simulate.foldl_bump_cnt (f : Simulate.Counts → Simulate.Counts) :
    ∀ (l : List Team) (st : Simulate.CState) (x : Team),
      ((l.foldl (fun s t => Simulate.bump s t f) st).2 x) = f^[l.count x] (st.2 x) := by
  intro l
  induction l with
  | nil => intro st x; simp
  | cons a as ih =>
    intro st x
    rw [List.foldl_cons, ih (Simulate.bump st a f) x, Simulate.bump_cnt, List.count_cons]
    by_cases hx : x = a
    · subst hx
      simp only [if_pos rfl, beq_self_eq_true, if_true]
      exact (Function.iterate_succ_apply f _ _).symm
    · have hne : (a == x) = false := by
        simp only [beq_eq_false_iff_ne]
        exact fun h => hx h.symm
      simp [if_neg hx, hne]

/-- Key membership after folding one increment over a whole list. -/
theorem Simulate.foldl_bump_keys (f : Simulate.Counts → Simulate.Counts) :
    ∀ (l : List Team) (st : Simulate.CState) (x : Team),
      (x ∈ (l.foldl (fun s t => Simulate.bump s t f) st).1 ↔ x ∈ st.1 ∨ x ∈ l) := by
  intro l
  induction l with
  | nil => intro st x; simp
  | cons a as ih =>
    intro st x
    rw [List.foldl_cons, ih (Simulate.bump st a f) x, Simulate.bump_keys_mem]
    constructor
    · rintro ((hx | rfl) | hx)
      · exact Or.inl hx
      · exact Or.inr (List.mem_cons_self _ _)
      · exact Or.inr (List.mem_cons_of_mem _ hx)
    · rintro (hx | hx)
      · exact Or.inl (Or.inl hx)
      · rcases List.mem_cons.mp hx with rfl | hx
        · exact Or.inl (Or.inr rfl)
        · exact Or.inr hx

/-- The key list stays duplicate-free under the whole fold. -/
theorem Simulate.foldl_bump_nodup (f : Simulate.Counts → Simulate.Counts) :
    ∀ (l : List Team) (st : Simulate.CState), st.1.Nodup →
      ((l.foldl (fun s t => Simulate.bump s t f) st).1).Nodup := by
  intro l
  induction l with
  | nil => intro st h; exact h
  | cons a as ih =>
    intro st h
    rw [List.foldl_cons]
    exact ih _ (Simulate.bump_nodup st a f h)

/-- Iterating the divisional increment adds the iteration count. -/
theorem Simulate.iterate_inc_div (k : Nat) (c : Simulate.Counts) :
    (fun c : Simulate.Counts => { c with divisional := c.divisional + 1 })^[k] c
      = { c with divisional := c.divisional + k } := by
  induction k with
  | zero => simp
  | succ n ih =>
    rw [Function.iterate_succ_apply', ih]
    simp [Nat.add_assoc]

/-- Iterating the conference-championship increment adds the iteration count. -/
theorem Simulate.iterate_inc_cc (k : Nat) (c : Simulate.Counts) :
    (fun c : Simulate.Counts => { c with conf_champ := c.conf_champ + 1 })^[k] c
      = { c with conf_champ := c.conf_champ + k } := by
  induction k with
  | zero => simp
  | succ n ih =>
    rw [Function.iterate_succ_apply', ih]
    simp [Nat.add_assoc]

/-- Iterating the Super Bowl increment adds the iteration count. -/
theorem Simulate.iterate_inc_sb (k : Nat) (c : Simulate.Counts) :
    (fun c : Simulate.Counts => { c with super_bowl := c.super_bowl + 1 })^[k] c
      = { c with super_bowl := c.super_bowl + k } := by
  induction k with
  | zero => simp
  | succ n ih =>
    rw [Function.iterate_succ_apply', ih]
    simp [Nat.add_assoc]

/-- Counter table after folding one whole trial into the accumulator: each
milestone counter gains the number of occurrences of the team in that
trial's milestone list, and the champion counter gains one for the champion
(when the truthiness guard passes). -/
theorem Simulate.update_counts_cnt (st : Simulate.CState) (r : Simulate.TrialOutcome)
    (x : Team) :
    (Simulate.update_counts st r).2 x =
      { divisional := (st.2 x).divisional + r.divisional.count x
        conf_champ := (st.2 x).conf_champ + r.conf_champ.count x
        super_bowl := (st.2 x).super_bowl + r.super_bowl.count x
        champion := (st.2 x).champion +
          (if r.champion ≠ "" ∧ x = r.champion then 1 else 0) } := by
  unfold Simulate.update_counts
  by_cases hg : r.champion ≠ ""
  · simp only [if_pos hg, Simulate.bump_cnt]
    rw [Simulate.foldl_bump_cnt, Simulate.foldl_bump_cnt, Simulate.foldl_bump_cnt,
      Simulate.iterate_inc_div, Simulate.iterate_inc_cc, Simulate.iterate_inc_sb]
    by_cases hx : x = r.champion
    · simp [hx, hg]
    · simp [hx, hg]
  · simp only [if_neg hg]
    rw [Simulate.foldl_bump_cnt, Simulate.foldl_bump_cnt, Simulate.foldl_bump_cnt,
      Simulate.iterate_inc_div, Simulate.iterate_inc_cc, Simulate.iterate_inc_sb]
    simp [hg]

/-- Key membership after folding one whole trial into the accumulator. -/
theorem Simulate.update_counts_keys (st : Simulate.CState) (r : Simulate.TrialOutcome)
    (x : Team) :
    x ∈ (Simulate.update_counts st r).1 ↔
      x ∈ st.1 ∨ x ∈ r.divisional ∨ x ∈ r.conf_champ ∨ x ∈ r.super_bowl
        ∨ (r.champion ≠ "" ∧ x = r.champion) := by
  unfold Simulate.update_counts
  by_cases hg : r.champion ≠ ""
  · simp only [if_pos hg, Simulate.bump_keys_mem, Simulate.foldl_bump_keys]
    constructor
    · rintro ((((h | h) | h) | h) | h)
      · exact Or.inl h
      · exact Or.inr (Or.inl h)
      · exact Or.inr (Or.inr (Or.inl h))
      · exact Or.inr (Or.inr (Or.inr (Or.inl h)))
      · exact Or.inr (Or.inr (Or.inr (Or.inr ⟨hg, h⟩)))
    · rintro (h | h | h | h | ⟨_, h⟩)
      · exact Or.inl (Or.inl (Or.inl (Or.inl h)))
      · exact Or.inl (Or.inl (Or.inl (Or.inr h)))
      · exact Or.inl (Or.inl (Or.inr h))
      · exact Or.inl (Or.inr h)
      · exact Or.inr h
  · simp only [if_neg hg, Simulate.foldl_bump_keys]
    constructor
    · rintro (((h | h) | h) | h)
      · exact Or.inl h
      · exact Or.inr (Or.inl h)
      · exact Or.inr (Or.inr (Or.inl h))
      · exact Or.inr (Or.inr (Or.inr (Or.inl h)))
    · rintro (h | h | h | h | ⟨hgg, _⟩)
      · exact Or.inl (Or.inl (Or.inl h))
      · exact Or.inl (Or.inl (Or.inr h))
      · exact Or.inl (Or.inr h)
      · exact Or.inr h
      · exact absurd hgg hg

/-- The key list stays duplicate-free across a whole trial update. -/
theorem Simulate.update_counts_nodup (st : Simulate.CState) (r : Simulate.TrialOutcome)
    (h : st.1.Nodup) : (Simulate.update_counts st r).1.Nodup := by
  unfold Simulate.update_counts
  by_cases hg : r.champion ≠ ""
  · simp only [if_pos hg]
    exact Simulate.bump_nodup _ _ _
      (Simulate.foldl_bump_nodup _ _ _ (Simulate.foldl_bump_nodup _ _ _
        (Simulate.foldl_bump_nodup _ _ _ h)))
  · simp only [if_neg hg]
    exact Simulate.foldl_bump_nodup _ _ _ (Simulate.foldl_bump_nodup _ _ _
      (Simulate.foldl_bump_nodup _ _ _ h))

/-- Invariant of the trial loop: duplicate-free keys, zero counters off the
key list, per-team monotone counters, champion counters summing to the
number of trials folded so far, positive divisional counter and bracket
membership for every key. -/
def Simulate.AggInv (st : Simulate.CState) (trials : Nat) : Prop :=
  st.1.Nodup
  ∧ (∀ t, t ∉ st.1 → st.2 t = ⟨0, 0, 0, 0⟩)
  ∧ (∀ t, (st.2 t).champion ≤ (st.2 t).super_bowl)
  ∧ (∀ t, (st.2 t).super_bowl ≤ (st.2 t).conf_champ)
  ∧ (∀ t, (st.2 t).conf_champ ≤ (st.2 t).divisional)
  ∧ (st.1.map (fun t => (st.2 t).champion)).sum = trials
  ∧ (∀ t ∈ st.1, 1 ≤ (st.2 t).divisional)
  ∧ (∀ t ∈ st.1, t ∈ Simulate.all_playoff_teams)

/-- The empty accumulator satisfies the invariant for zero trials. -/
theorem Simulate.agg_init : Simulate.AggInv ([], fun _ => ⟨0, 0, 0, 0⟩) 0 :=
  ⟨List.nodup_nil, fun _ _ => rfl, fun _ => le_refl _, fun _ => le_refl _,
   fun _ => le_refl _, rfl, fun t ht => absurd ht (List.not_mem_nil t),
   fun t ht => absurd ht (List.not_mem_nil t)⟩

/-- Sums of pointwise sums of maps split. -/
theorem Simulate.list_sum_map_add (l : List Team) (g h : Team → ℕ) :
    (l.map (fun t => g t + h t)).sum = (l.map g).sum + (l.map h).sum := by
  induction l with
  | nil => rfl
  | cons a as ih => simp [ih]; omega

/-- A sum over a duplicate-free list equals the sum over any duplicate-free
superlist on which the function vanishes outside the sublist. -/
theorem Simulate.sum_extend_zero (l₁ l₂ : List Team) (g : Team → ℕ)
    (h₁ : l₁.Nodup) (h₂ : l₂.Nodup) (hsub : ∀ x ∈ l₁, x ∈ l₂)
    (hz : ∀ x ∈ l₂, x ∉ l₁ → g x = 0) :
    (l₂.map g).sum = (l₁.map g).sum := by
  rw [← List.sum_toFinset g h₁, ← List.sum_toFinset g h₂]
  refine (Finset.sum_subset ?_ ?_).symm
  · intro x hx
    exact List.mem_toFinset.mpr (hsub x (List.mem_toFinset.mp hx))
  · intro x hx hnx
    exact hz x (List.mem_toFinset.mp hx) (fun hmem => hnx (List.mem_toFinset.mpr hmem))

/-- The indicator of a member of a duplicate-free list sums to one. -/
theorem Simulate.sum_indicator (l : List Team) (a : Team) (hnd : l.Nodup) (ha : a ∈ l) :
    (l.map (fun t => if t = a then (1 : ℕ) else 0)).sum = 1 := by
  rw [← List.sum_toFinset _ hnd, Finset.sum_ite_eq' l.toFinset a (fun _ => (1 : ℕ))]
  simp [List.mem_toFinset.mpr ha]

/-- Empty strings never name a seeded team. -/
theorem Simulate.playoff_teams_ne_empty : ∀ t ∈ Simulate.all_playoff_teams, t ≠ "" := by
  decide

/-- Folding one well-formed trial outcome into an accumulator satisfying the
invariant for `n` trials yields the invariant for `n + 1` trials. -/
theorem Simulate.agg_step (st : Simulate.CState) (r : Simulate.TrialOutcome) (n : Nat)
    (hinv : Simulate.AggInv st n)
    (hsc : ∀ t, r.super_bowl.count t ≤ r.conf_champ.count t)
    (hcd : ∀ t, r.conf_champ.count t ≤ r.divisional.count t)
    (hch : r.champion ∈ r.super_bowl)
    (hall : ∀ t ∈ r.divisional, t ∈ Simulate.all_playoff_teams) :
    Simulate.AggInv (Simulate.update_counts st r) (n + 1) := by
  obtain ⟨hnd, hz, hcs, hsc', hcd', hsum, hpos, hmem⟩ := hinv
  have hsb_pos : 1 ≤ r.super_bowl.count r.champion := List.count_pos_iff.mpr hch
  have hcc_pos : 1 ≤ r.conf_champ.count r.champion := le_trans hsb_pos (hsc _)
  have hdv_pos : 1 ≤ r.divisional.count r.champion := le_trans hcc_pos (hcd _)
  have hchd : r.champion ∈ r.divisional := List.count_pos_iff.mp hdv_pos
  have hgne : r.champion ≠ "" := Simulate.playoff_teams_ne_empty _ (hall _ hchd)
  have hmemconf : ∀ x, x ∈ r.conf_champ → x ∈ r.divisional := fun x hx =>
    List.count_pos_iff.mp (lt_of_lt_of_le (List.count_pos_iff.mpr hx) (hcd x))
  have hmemsb : ∀ x, x ∈ r.super_bowl → x ∈ r.divisional := fun x hx =>
    List.count_pos_iff.mp (lt_of_lt_of_le (lt_of_lt_of_le
      (List.count_pos_iff.mpr hx) (hsc x)) (hcd x))
  refine ⟨Simulate.update_counts_nodup st r hnd, ?_, ?_, ?_, ?_, ?_, ?_, ?_⟩
  · intro t ht
    rw [Simulate.update_counts_keys] at ht
    push_neg at ht
    obtain ⟨h1, h2, h3, h4, h5⟩ := ht
    rw [Simulate.update_counts_cnt, hz t h1]
    simp [List.count_eq_zero_of_not_mem h2, List.count_eq_zero_of_not_mem h3,
      List.count_eq_zero_of_not_mem h4, h5 hgne]
  · intro t
    rw [Simulate.update_counts_cnt]
    refine Nat.add_le_add (hcs t) ?_
    by_cases hx : t = r.champion
    · subst hx
      rw [if_pos ⟨hgne, rfl⟩]
      exact hsb_pos
    · rw [if_neg (fun h => hx h.2)]
      exact Nat.zero_le _
  · intro t
    rw [Simulate.update_counts_cnt]
    exact Nat.add_le_add (hsc' t) (hsc t)
  · intro t
    rw [Simulate.update_counts_cnt]
    exact Nat.add_le_add (hcd' t) (hcd t)
  · have hpt : ∀ t, ((Simulate.update_counts st r).2 t).champion
        = (st.2 t).champion + (if t = r.champion then 1 else 0) := by
      intro t
      rw [Simulate.update_counts_cnt]
      simp [hgne]
    have hkeymem : ∀ x ∈ st.1, x ∈ (Simulate.update_counts st r).1 := fun x hx =>
      (Simulate.update_counts_keys st r x).mpr (Or.inl hx)
    have hchampkey : r.champion ∈ (Simulate.update_counts st r).1 :=
      (Simulate.update_counts_keys st r r.champion).mpr (Or.inr (Or.inl hchd))
    have hnd' := Simulate.update_counts_nodup st r hnd
    calc ((Simulate.update_counts st r).1.map
            (fun t => ((Simulate.update_counts st r).2 t).champion)).sum
        = ((Simulate.update_counts st r).1.map
            (fun t => (st.2 t).champion + (if t = r.champion then 1 else 0))).sum := by
          exact congrArg List.sum (List.map_congr_left (fun t _ => hpt t))
      _ = ((Simulate.update_counts st r).1.map (fun t => (st.2 t).champion)).sum
            + ((Simulate.update_counts st r).1.map
                (fun t => if t = r.champion then (1 : ℕ) else 0)).sum :=
          Simulate.list_sum_map_add _ _ _
      _ = (st.1.map (fun t => (st.2 t).champion)).sum + 1 := by
          rw [Simulate.sum_extend_zero st.1 (Simulate.update_counts st r).1
              (fun t => (st.2 t).champion) hnd hnd' hkeymem
              (fun x _ hnx => by show (st.2 x).champion = 0; rw [hz x hnx]),
            Simulate.sum_indicator _ _ hnd' hchampkey]
      _ = n + 1 := by rw [hsum]
  · intro t ht
    rw [Simulate.update_counts_cnt] at *
    rw [Simulate.update_counts_keys] at ht
    have hcase : t ∈ st.1 ∨ 1 ≤ r.divisional.count t := by
      rcases ht with h | h | h | h | ⟨_, rfl⟩
      · exact Or.inl h
      · exact Or.inr (List.count_pos_iff.mpr h)
      · exact Or.inr (List.count_pos_iff.mpr (hmemconf t h))
      · exact Or.inr (List.count_pos_iff.mpr (hmemsb t h))
      · exact Or.inr hdv_pos
    rcases hcase with h | h
    · exact le_trans (hpos t h) (Nat.le_add_right _ _)
    · exact le_trans h (Nat.le_add_left _ _)
  · intro t ht
    rw [Simulate.update_counts_keys] at ht
    rcases ht with h | h | h | h | ⟨_, rfl⟩
    · exact hmem t h
    · exact hall t h
    · exact hall t (hmemconf t h)
    · exact hall t (hmemsb t h)
    · exact hall _ hchd

/-- Unfolding equation for the empty trial loop. -/
theorem Simulate.sim_loop_zero (elo_dict : Team → Option ℝ) (hfa : ℝ) (rng : Nat → ℝ)
    (st : Simulate.CState) (i : Nat) :
    Simulate.sim_loop elo_dict hfa rng 0 st i = (i, .ok st) := rfl

/-- Unfolding equation for one more trial. -/
theorem Simulate.sim_loop_succ (elo_dict : Team → Option ℝ) (hfa : ℝ) (rng : Nat → ℝ)
    (n : Nat) (st : Simulate.CState) (i : Nat) :
    Simulate.sim_loop elo_dict hfa rng (n + 1) st i =
      match Simulate.simulate_one_bracket elo_dict hfa rng i with
      | (i', .error e) => (i', .error e)
      | (i', .ok results) =>
        Simulate.sim_loop elo_dict hfa rng n (Simulate.update_counts st results) i' := rfl

/-- With all fourteen teams rated, the trial loop runs to completion,
consuming thirteen draws per trial and preserving the aggregate invariant. -/
theorem Simulate.sim_loop_ok (elo_dict : Team → Option ℝ) (hfa : ℝ) (rng : Nat → ℝ)
    (hr : ∀ t ∈ Simulate.all_playoff_teams, (elo_dict t).isSome) :
    ∀ (n : Nat) (st : Simulate.CState) (i k : Nat), Simulate.AggInv st k →
      ∃ st', Simulate.sim_loop elo_dict hfa rng n st i = (i + 13 * n, .ok st')
        ∧ Simulate.AggInv st' (k + n) := by
  intro n
  induction n with
  | zero =>
    intro st i k hinv
    exact ⟨st, by simp [Simulate.sim_loop_zero], hinv⟩
  | succ m ih =>
    intro st i k hinv
    obtain ⟨r, hbr, hsc, hcd, hch, hall⟩ := Simulate.bracket_ok elo_dict hfa rng i hr
    obtain ⟨st', hloop, hinv'⟩ := ih (Simulate.update_counts st r) (i + 13) (k + 1)
      (Simulate.agg_step st r k hinv hsc hcd hch hall)
    refine ⟨st', ?_, ?_⟩
    · rw [Simulate.sim_loop_succ, hbr]
      simp only [hloop]
      have : i + 13 + 13 * m = i + 13 * (m + 1) := by ring
      rw [this]
    · have : k + 1 + m = k + (m + 1) := by omega
      rwa [this] at hinv'

/-! ## The insertion sort used to model sorting -/

/-- Inserting an element permutes consing it. -/
theorem Simulate.insertOrd_perm (lt : α → α → Bool) (x : α) :
    ∀ l : List α, (Simulate.insertOrd lt x l).Perm (x :: l) := by
  intro l
  induction l with
  | nil => exact List.Perm.refl _
  | cons y ys ih =>
    unfold Simulate.insertOrd
    by_cases h : lt x y
    · simp only [if_pos h]
      exact List.Perm.refl _
    · simp only [if_neg h]
      exact (ih.cons y).trans (List.Perm.swap x y ys)

/-- The modelled Python `sorted` permutes its input. -/
theorem Simulate.pySortBy_perm (lt : α → α → Bool) (l : List α) :
    (Simulate.pySortBy lt l).Perm l := by
  have haux : ∀ (l : List α) (acc : List α),
      (l.foldl (fun a x => Simulate.insertOrd lt x a) acc).Perm (acc ++ l) := by
    intro l
    induction l with
    | nil => intro acc; simp
    | cons x xs ih =>
      intro acc
      rw [List.foldl_cons]
      refine (ih (Simulate.insertOrd lt x acc)).trans ?_
      refine (List.Perm.append_right xs (Simulate.insertOrd_perm lt x acc)).trans ?_
      exact List.perm_middle.symm
  simpa using haux l []

/-! ## Rational sum helpers -/

/-- Sums of maps distribute over pointwise division by a constant. -/
theorem Simulate.list_sum_map_div (l : List Team) (g : Team → ℚ) (c : ℚ) :
    (l.map (fun t => g t / c)).sum = (l.map g).sum / c := by
  induction l with
  | nil => simp
  | cons a as ih => simp [ih, add_div]

/-- Division of naturals cast to rationals is monotone. -/
theorem Simulate.div_le_div_nat (a b N : ℕ) (h : a ≤ b) :
    (a : ℚ) / (N : ℚ) ≤ (b : ℚ) / (N : ℚ) := by
  rcases Nat.eq_zero_or_pos N with hN | hN
  · subst hN
    simp
  · have hc : (0 : ℚ) < (N : ℚ) := by exact_mod_cast hN
    exact (div_le_div_iff_of_pos_right hc).mpr (by exact_mod_cast h)

/-- With all fourteen teams rated, `run_simulations` succeeds and returns
the sorted probability rows of an accumulator satisfying the invariant. -/
theorem Simulate.run_ok (elo_dict : Team → Option ℝ) (hfa : ℝ) (rng : Nat → ℝ)
    (num_sims i : Nat)
    (hr : ∀ t ∈ Simulate.all_playoff_teams, (elo_dict t).isSome) :
    ∃ st', Simulate.run_simulations elo_dict hfa num_sims rng i
        = (i + 13 * num_sims, .ok (Simulate.pySortBy
            (fun a b => decide (b.pct_win_superbowl < a.pct_win_superbowl))
            (st'.1.map (Simulate.make_row st'.2 num_sims))))
      ∧ Simulate.AggInv st' num_sims := by
  obtain ⟨st', hloop, hinv⟩ := Simulate.sim_loop_ok elo_dict hfa rng hr num_sims
    ([], fun _ => ⟨0, 0, 0, 0⟩) i 0 Simulate.agg_init
  refine ⟨st', ?_, by simpa using hinv⟩
  unfold Simulate.run_simulations
  simp only [hloop]

/-- Claim C4: with every seeded team rated and a positive trial count, the
run succeeds and the championship probabilities of the returned rows (one
per team, teams distinct and drawn from the fourteen seeds) sum to exactly
one, because exactly one champion is recorded per trial and probabilities
are champion counts over the trial count. -/
theorem claim_c4 (elo_dict : Team → Option ℝ) (hfa : ℝ) (rng : Nat → ℝ)
    (num_sims i : Nat)
    (hr : ∀ t ∈ Simulate.all_playoff_teams, (elo_dict t).isSome)
    (hn : 0 < num_sims) :
    ∃ i' rows, Simulate.run_simulations elo_dict hfa num_sims rng i = (i', .ok rows)
      ∧ (rows.map (fun row => row.pct_win_superbowl)).sum = 1
      ∧ (rows.map (fun row => row.team)).Nodup
      ∧ (∀ row ∈ rows, row.team ∈ Simulate.all_playoff_teams) := by
  obtain ⟨st', hrun, hinv⟩ := Simulate.run_ok elo_dict hfa rng num_sims i hr
  obtain ⟨hnd, hz, hcs, hsc', hcd', hsum, hpos, hmem⟩ := hinv
  have hperm : (Simulate.pySortBy
      (fun a b => decide (b.pct_win_superbowl < a.pct_win_superbowl))
      (st'.1.map (Simulate.make_row st'.2 num_sims))).Perm
        (st'.1.map (Simulate.make_row st'.2 num_sims)) :=
    Simulate.pySortBy_perm _ _
  refine ⟨_, _, hrun, ?_, ?_, ?_⟩
  · have h1 := (hperm.map (fun row => row.pct_win_superbowl)).sum_eq
    rw [h1, List.map_map]
    have h2 : ((fun row => Simulate.Row.pct_win_superbowl row)
          ∘ Simulate.make_row st'.2 num_sims)
        = fun t => ((st'.2 t).champion : ℚ) / (num_sims : ℚ) := rfl
    rw [h2, Simulate.list_sum_map_div]
    have h3 : (st'.1.map (fun t => ((st'.2 t).champion : ℚ))).sum
        = (((st'.1.map (fun t => (st'.2 t).champion)).sum : ℕ) : ℚ) := by
      rw [Nat.cast_list_sum, List.map_map]
      rfl
    rw [h3, hsum]
    exact div_self (by exact_mod_cast Nat.pos_iff_ne_zero.mp hn)
  · have hteams : (st'.1.map (Simulate.make_row st'.2 num_sims)).map
        (fun row => row.team) = st'.1 := by
      rw [List.map_map]
      have : ((fun row => Simulate.Row.team row) ∘ Simulate.make_row st'.2 num_sims)
          = fun t => t := rfl
      rw [this, List.map_id']
    refine ((hperm.map (fun row => row.team)).nodup_iff).mpr ?_
    rw [hteams]
    exact hnd
  · intro row hrow
    have hrow0 : row ∈ st'.1.map (Simulate.make_row st'.2 num_sims) :=
      hperm.mem_iff.mp hrow
    obtain ⟨t, ht, heq⟩ := List.mem_map.mp hrow0
    rw [← heq]
    exact hmem t ht

/-- Witness for claim C4: all fourteen teams rated, one trial. -/
theorem claim_c4_witness :
    (∀ t ∈ Simulate.all_playoff_teams, ((fun _ : Team => some (1500 : ℝ)) t).isSome)
    ∧ (0 : Nat) < 1
    ∧ ∃ i' rows, Simulate.run_simulations (fun _ : Team => some (1500 : ℝ)) 55 1
          (fun _ => (0 : ℝ)) 0 = (i', .ok rows)
        ∧ (rows.map (fun row => row.pct_win_superbowl)).sum = 1
        ∧ (rows.map (fun row => row.team)).Nodup
        ∧ (∀ row ∈ rows, row.team ∈ Simulate.all_playoff_teams) :=
  ⟨fun _ _ => rfl, by decide,
   claim_c4 (fun _ : Team => some (1500 : ℝ)) 55 (fun _ => (0 : ℝ)) 1 0
     (fun _ _ => rfl) (by decide)⟩

/-- Claim C5: with every seeded team rated, the run succeeds and every
returned row is monotone along the milestone chain:
`pct_win_superbowl ≤ pct_make_superbowl ≤ pct_make_conf_champ ≤
pct_make_divisional`, for every trial count. -/
theorem claim_c5 (elo_dict : Team → Option ℝ) (hfa : ℝ) (rng : Nat → ℝ)
    (num_sims i : Nat)
    (hr : ∀ t ∈ Simulate.all_playoff_teams, (elo_dict t).isSome) :
    ∃ i' rows, Simulate.run_simulations elo_dict hfa num_sims rng i = (i', .ok rows)
      ∧ ∀ row ∈ rows, row.pct_win_superbowl ≤ row.pct_make_superbowl
          ∧ row.pct_make_superbowl ≤ row.pct_make_conf_champ
          ∧ row.pct_make_conf_champ ≤ row.pct_make_divisional := by
  obtain ⟨st', hrun, hinv⟩ := Simulate.run_ok elo_dict hfa rng num_sims i hr
  obtain ⟨hnd, hz, hcs, hsc', hcd', hsum, hpos, hmem⟩ := hinv
  refine ⟨_, _, hrun, ?_⟩
  intro row hrow
  have hrow0 : row ∈ st'.1.map (Simulate.make_row st'.2 num_sims) :=
    (Simulate.pySortBy_perm _ _).mem_iff.mp hrow
  obtain ⟨t, ht, heq⟩ := List.mem_map.mp hrow0
  rw [← heq]
  exact ⟨Simulate.div_le_div_nat _ _ _ (hcs t),
    Simulate.div_le_div_nat _ _ _ (hsc' t),
    Simulate.div_le_div_nat _ _ _ (hcd' t)⟩

/-- Witness for claim C5: all fourteen teams rated, three trials. -/
theorem claim_c5_witness :
    (∀ t ∈ Simulate.all_playoff_teams, ((fun _ : Team => some (1500 : ℝ)) t).isSome)
    ∧ ∃ i' rows, Simulate.run_simulations (fun _ : Team => some (1500 : ℝ)) 55 3
          (fun _ => (0 : ℝ)) 0 = (i', .ok rows)
        ∧ ∀ row ∈ rows, row.pct_win_superbowl ≤ row.pct_make_superbowl
            ∧ row.pct_make_superbowl ≤ row.pct_make_conf_champ
            ∧ row.pct_make_conf_champ ≤ row.pct_make_divisional :=
  ⟨fun _ _ => rfl,
   claim_c5 (fun _ : Team => some (1500 : ℝ)) 55 (fun _ => (0 : ℝ)) 3 0 (fun _ _ => rfl)⟩

/-- Claim C9 (amended): rows exist only for observed teams — with every
seeded team rated and a positive trial count, the run succeeds and every
returned row belongs to a team that reached the divisional round in at least
one trial, with strictly positive `pct_make_divisional`; never-observed
teams have no row at all (the defaultdict is not pre-populated). -/
theorem claim_c9_amended (elo_dict : Team → Option ℝ) (hfa : ℝ) (rng : Nat → ℝ)
    (num_sims i : Nat)
    (hr : ∀ t ∈ Simulate.all_playoff_teams, (elo_dict t).isSome)
    (hn : 0 < num_sims) :
    ∃ i' rows, Simulate.run_simulations elo_dict hfa num_sims rng i = (i', .ok rows)
      ∧ ∀ row ∈ rows, 0 < row.pct_make_divisional := by
  obtain ⟨st', hrun, hinv⟩ := Simulate.run_ok elo_dict hfa rng num_sims i hr
  obtain ⟨hnd, hz, hcs, hsc', hcd', hsum, hpos, hmem⟩ := hinv
  refine ⟨_, _, hrun, ?_⟩
  intro row hrow
  have hrow0 : row ∈ st'.1.map (Simulate.make_row st'.2 num_sims) :=
    (Simulate.pySortBy_perm _ _).mem_iff.mp hrow
  obtain ⟨t, ht, heq⟩ := List.mem_map.mp hrow0
  rw [← heq]
  show (0 : ℚ) < ((st'.2 t).divisional : ℚ) / (num_sims : ℚ)
  refine div_pos ?_ ?_
  · exact_mod_cast lt_of_lt_of_le Nat.zero_lt_one (hpos t ht)
  · exact_mod_cast hn

/-- Witness for claim C9 (amended): all fourteen teams rated, two trials. -/
theorem claim_c9_witness :
    (∀ t ∈ Simulate.all_playoff_teams, ((fun _ : Team => some (1500 : ℝ)) t).isSome)
    ∧ (0 : Nat) < 2
    ∧ ∃ i' rows, Simulate.run_simulations (fun _ : Team => some (1500 : ℝ)) 55 2
          (fun _ => (0 : ℝ)) 0 = (i', .ok rows)
        ∧ ∀ row ∈ rows, 0 < row.pct_make_divisional :=
  ⟨fun _ _ => rfl, by decide,
   claim_c9_amended (fun _ : Team => some (1500 : ℝ)) 55 (fun _ => (0 : ℝ)) 2 0
     (fun _ _ => rfl) (by decide)⟩

/-! ## Concrete evaluation of a run on the all-zero random stream -/

/-- On the all-zero stream a game between rated teams is won by the home
team, since the win probability is strictly positive. -/
theorem Simulate.game_zero (team_home team_away : Team) (elo_dict : Team → Option ℝ)
    (hfa : ℝ) (nt : Bool) (i : Nat) (eh ea : ℝ)
    (hh : elo_dict team_home = some eh) (ha : elo_dict team_away = some ea) :
    Simulate.simulate_game team_home team_away elo_dict hfa nt (fun _ => (0 : ℝ)) i
      = (i + 1, .ok (team_home, Simulate.compute_win_probability eh ea hfa nt)) := by
  unfold Simulate.simulate_game
  rw [hh, ha]
  have h0 : (fun _ : Nat => (0 : ℝ)) i < Simulate.compute_win_probability eh ea hfa nt :=
    Simulate.compute_win_probability_pos eh ea hfa nt
  simp only [if_pos h0]

/-- On the all-zero stream with every team rated 1500 the unique bracket
outcome: home teams win every game, so seeds 1-4 reach the divisional round,
seeds 1-2 the championships, the two top seeds the Super Bowl, and the AFC
top seed (the nominal Super Bowl home) wins it all. -/
theorem Simulate.bracket_eval_zero :
    Simulate.simulate_one_bracket (fun _ : Team => some (1500 : ℝ)) 55
        (fun _ => (0 : ℝ)) 0
      = (13, .ok { divisional := ["DEN", "NE", "JAX", "PIT", "SEA", "CHI", "PHI", "CAR"]
                   conf_champ := ["DEN", "NE", "SEA", "CHI"]
                   super_bowl := ["DEN", "SEA"]
                   champion := "DEN" }) := by
  have hwcA : Simulate.simulate_wild_card "AFC" Simulate.afc_seeds
      (fun _ : Team => some (1500 : ℝ)) 55 (fun _ => (0 : ℝ)) 0
        = (3, .ok ["DEN", "NE", "JAX", "PIT"]) := by
    unfold Simulate.simulate_wild_card
    have hg1 := Simulate.game_zero (Simulate.afc_seeds 2) (Simulate.afc_seeds 7)
      (fun _ : Team => some (1500 : ℝ)) 55 false 0 1500 1500 rfl rfl
    have hg2 := Simulate.game_zero (Simulate.afc_seeds 3) (Simulate.afc_seeds 6)
      (fun _ : Team => some (1500 : ℝ)) 55 false (0 + 1) 1500 1500 rfl rfl
    have hg3 := Simulate.game_zero (Simulate.afc_seeds 4) (Simulate.afc_seeds 5)
      (fun _ : Team => some (1500 : ℝ)) 55 false (0 + 1 + 1) 1500 1500 rfl rfl
    simp only [Simulate.run_matchups, hg1, hg2, hg3]
    rfl
  have hdA : Simulate.simulate_divisional "AFC" ["DEN", "NE", "JAX", "PIT"]
      Simulate.afc_seeds (fun _ : Team => some (1500 : ℝ)) 55 (fun _ => (0 : ℝ)) 3
        = (5, .ok ["DEN", "NE"]) := by
    unfold Simulate.simulate_divisional
    have hp : Simulate.divisional_pairings Simulate.afc_seeds ["DEN", "NE", "JAX", "PIT"]
        = .ok (("DEN", "PIT"), ("NE", "JAX")) := rfl
    rw [hp]
    have hg1 := Simulate.game_zero "DEN" "PIT"
      (fun _ : Team => some (1500 : ℝ)) 55 false 3 1500 1500 rfl rfl
    have hg2 := Simulate.game_zero "NE" "JAX"
      (fun _ : Team => some (1500 : ℝ)) 55 false (3 + 1) 1500 1500 rfl rfl
    simp only [hg1, hg2]
  have hcA : Simulate.simulate_conference_championship "AFC" ["DEN", "NE"]
      Simulate.afc_seeds (fun _ : Team => some (1500 : ℝ)) 55 (fun _ => (0 : ℝ)) 5
        = (6, .ok "DEN") := by
    unfold Simulate.simulate_conference_championship
    have hp : Simulate.championship_pairing Simulate.afc_seeds ["DEN", "NE"]
        = .ok ("DEN", "NE") := rfl
    rw [hp]
    have hg := Simulate.game_zero "DEN" "NE"
      (fun _ : Team => some (1500 : ℝ)) 55 false 5 1500 1500 rfl rfl
    simp only [hg]
  have hwcN : Simulate.simulate_wild_card "NFC" Simulate.nfc_seeds
      (fun _ : Team => some (1500 : ℝ)) 55 (fun _ => (0 : ℝ)) 6
        = (9, .ok ["SEA", "CHI", "PHI", "CAR"]) := by
    unfold Simulate.simulate_wild_card
    have hg1 := Simulate.game_zero (Simulate.nfc_seeds 2) (Simulate.nfc_seeds 7)
      (fun _ : Team => some (1500 : ℝ)) 55 false 6 1500 1500 rfl rfl
    have hg2 := Simulate.game_zero (Simulate.nfc_seeds 3) (Simulate.nfc_seeds 6)
      (fun _ : Team => some (1500 : ℝ)) 55 false (6 + 1) 1500 1500 rfl rfl
    have hg3 := Simulate.game_zero (Simulate.nfc_seeds 4) (Simulate.nfc_seeds 5)
      (fun _ : Team => some (1500 : ℝ)) 55 false (6 + 1 + 1) 1500 1500 rfl rfl
    simp only [Simulate.run_matchups, hg1, hg2, hg3]
    rfl
  have hdN : Simulate.simulate_divisional "NFC" ["SEA", "CHI", "PHI", "CAR"]
      Simulate.nfc_seeds (fun _ : Team => some (1500 : ℝ)) 55 (fun _ => (0 : ℝ)) 9
        = (11, .ok ["SEA", "CHI"]) := by
    unfold Simulate.simulate_divisional
    have hp : Simulate.divisional_pairings Simulate.nfc_seeds ["SEA", "CHI", "PHI", "CAR"]
        = .ok (("SEA", "CAR"), ("CHI", "PHI")) := rfl
    rw [hp]
    have hg1 := Simulate.game_zero "SEA" "CAR"
      (fun _ : Team => some (1500 : ℝ)) 55 false 9 1500 1500 rfl rfl
    have hg2 := Simulate.game_zero "CHI" "PHI"
      (fun _ : Team => some (1500 : ℝ)) 55 false (9 + 1) 1500 1500 rfl rfl
    simp only [hg1, hg2]
  have hcN : Simulate.simulate_conference_championship "NFC" ["SEA", "CHI"]
      Simulate.nfc_seeds (fun _ : Team => some (1500 : ℝ)) 55 (fun _ => (0 : ℝ)) 11
        = (12, .ok "SEA") := by
    unfold Simulate.simulate_conference_championship
    have hp : Simulate.championship_pairing Simulate.nfc_seeds ["SEA", "CHI"]
        = .ok ("SEA", "CHI") := rfl
    rw [hp]
    have hg := Simulate.game_zero "SEA" "CHI"
      (fun _ : Team => some (1500 : ℝ)) 55 false 11 1500 1500 rfl rfl
    simp only [hg]
  have hsb : Simulate.simulate_super_bowl "DEN" "SEA"
      (fun _ : Team => some (1500 : ℝ)) 55 (fun _ => (0 : ℝ)) 12
        = (13, .ok "DEN") := by
    unfold Simulate.simulate_super_bowl
    have hg := Simulate.game_zero "DEN" "SEA"
      (fun _ : Team => some (1500 : ℝ)) 55 true 12 1500 1500 rfl rfl
    simp only [hg]
  unfold Simulate.simulate_one_bracket
  simp only [hwcA, hdA, hcA, hwcN, hdN, hcN, hsb]
  rfl

/-- Claim C9 counterexample: a single all-zero-stream trial with every team
rated produces aggregate rows for exactly the eight teams that reached the
divisional round; the seeded team `HOU` (and five others) never reached a
milestone and is absent from the output rather than present with
probability zero. -/
theorem claim_c9_counterexample :
    (Simulate.run_simulations (fun _ : Team => some (1500 : ℝ)) 55 1
        (fun _ => (0 : ℝ)) 0).2.map
          (fun rows => rows.countP (fun row => row.team == "HOU")) = .ok 0
    ∧ (Simulate.run_simulations (fun _ : Team => some (1500 : ℝ)) 55 1
        (fun _ => (0 : ℝ)) 0).2.map (fun rows => rows.length) = .ok 8
    ∧ "HOU" ∈ Simulate.all_playoff_teams := by
  have h1 : Simulate.sim_loop (fun _ : Team => some (1500 : ℝ)) 55 (fun _ => (0 : ℝ)) 1
      ([], fun _ => ⟨0, 0, 0, 0⟩) 0
      = (13, .ok (Simulate.update_counts ([], fun _ => ⟨0, 0, 0, 0⟩)
          { divisional := ["DEN", "NE", "JAX", "PIT", "SEA", "CHI", "PHI", "CAR"]
            conf_champ := ["DEN", "NE", "SEA", "CHI"]
            super_bowl := ["DEN", "SEA"]
            champion := "DEN" })) := by
    have h2 := Simulate.sim_loop_succ (fun _ : Team => some (1500 : ℝ)) 55
      (fun _ => (0 : ℝ)) 0 ([], fun _ => ⟨0, 0, 0, 0⟩) 0
    rw [Simulate.bracket_eval_zero] at h2
    exact h2
  have hperm := Simulate.pySortBy_perm
    (fun a b : Simulate.Row => decide (b.pct_win_superbowl < a.pct_win_superbowl))
    ((Simulate.update_counts ([], fun _ => ⟨0, 0, 0, 0⟩)
        { divisional := ["DEN", "NE", "JAX", "PIT", "SEA", "CHI", "PHI", "CAR"]
          conf_champ := ["DEN", "NE", "SEA", "CHI"]
          super_bowl := ["DEN", "SEA"]
          champion := "DEN" }).1.map
      (Simulate.make_row (Simulate.update_counts ([], fun _ => ⟨0, 0, 0, 0⟩)
        { divisional := ["DEN", "NE", "JAX", "PIT", "SEA", "CHI", "PHI", "CAR"]
          conf_champ := ["DEN", "NE", "SEA", "CHI"]
          super_bowl := ["DEN", "SEA"]
          champion := "DEN" }).2 1))
  refine ⟨?_, ?_, by decide⟩
  · unfold Simulate.run_simulations
    simp only [h1, Except.map]
    rw [hperm.countP_eq]
    rfl
  · unfold Simulate.run_simulations
    simp only [h1, Except.map]
    rw [hperm.length_eq]
    rfl
